import Mathlib

set_option linter.unnecessarySeqFocus false
set_option maxRecDepth 100000

/-!
Verification of the geo_ner address pipeline (src/geo_ner/address_parser.py and
src/geo_ner/tagged_text_to_geotext.py) against its specification.

The Python code is regex-driven.  We shallowly embed it as follows:

* Texts are `List Char` (Python `str`; `len`, slicing, `in`, `replace`, `strip`
  are modelled by the `py*` helpers below, restricted to ASCII data, which is
  the only data the patterns in the source can interact with).
* Each `re` pattern of the source is transcribed node-by-node into the `RE`
  syntax tree, and `mrun` is a backtracking matcher with Python `re`'s
  leftmost / greedy / lazy semantics (alternatives tried left to right, greedy
  loops longest-first, lazy loops shortest-first, word boundaries via `\b`).
  Bounded repetitions `x{m,n}` are expanded into nested greedy options, which
  is the standard semantics-preserving expansion.  A fuel argument makes the
  matcher total; the fuel bound `(size + 2) * (length + 2)` dominates the
  recursion depth, which decreases by one per syntax node along any path and
  by at least one consumed character per loop iteration.
* Confidence scores are `ℚ`; the Python literals 0.3/0.4/0.3/0.5 become
  3/10, 4/10, 3/10, 1/2 (for these one-decimal sums the float arithmetic of
  the source agrees exactly with ℚ at every comparison the code performs).
* The remote ShipEngine call of `parse_address_with_shipengine` is external
  I/O; its observable outcomes (HTTP status, transport error, malformed
  payload, parsed body) are reified as `ApiOutcome` and the function becomes a
  total function of the outcome, mirroring the source's handler chain.
-/

/-! ## Python string helpers -/

/-- Python whitespace for `str.strip` / regex `\s` (ASCII range). -/
def pyIsSpace (c : Char) : Bool :=
  c = ' ' || c = '\t' || c = '\n' || c = '\r' || c = '\x0b' || c = '\x0c'

/-- Python `str.strip()`. -/
def pyStrip (l : List Char) : List Char :=
  ((l.dropWhile pyIsSpace).reverse.dropWhile pyIsSpace).reverse

/-- Python substring test `pat in s`. -/
def pyContains : List Char → List Char → Bool
  | [], pat => pat.isEmpty
  | c :: cs, pat => pat.isPrefixOf (c :: cs) || pyContains cs pat

/-- Index of the first occurrence of `pat` in `s` (Python `str.find`). -/
def pyFindIdx : List Char → List Char → Option Nat
  | [], pat => if pat.isEmpty then some 0 else none
  | c :: cs, pat =>
    if pat.isPrefixOf (c :: cs) then some 0 else (pyFindIdx cs pat).map (· + 1)

/-- Python `str.replace` (all non-overlapping occurrences, left to right).
The sources never call it with an empty pattern; we return `s` there. -/
def pyReplaceAux : Nat → List Char → List Char → List Char → List Char
  | 0, s, _, _ => s
  | Nat.succ fu, s, pat, rep =>
    match pat with
    | [] => s
    | _ :: _ =>
      if pat.isPrefixOf s then rep ++ pyReplaceAux fu (s.drop pat.length) pat rep
      else
        match s with
        | [] => []
        | c :: cs => c :: pyReplaceAux fu cs pat rep

def pyReplace (s pat rep : List Char) : List Char := pyReplaceAux (s.length + 1) s pat rep

/-- Characters `.`, `!`, `?`: the class of `re.split(r'[.!?]+', text)`. -/
def isSentSep (c : Char) : Bool := c = '.' || c = '!' || c = '?'

/-- `re.split(r'[.!?]+', text)`: pieces between maximal separator runs,
including the empty pieces Python produces at the borders. -/
def splitSentsAux : Bool → List Char → List Char → List (List Char)
  | _, acc, [] => [acc.reverse]
  | inSep, acc, c :: cs =>
    if isSentSep c then
      if inSep then splitSentsAux true [] cs
      else acc.reverse :: splitSentsAux true [] cs
    else splitSentsAux false (c :: acc) cs

def splitSentences (l : List Char) : List (List Char) := splitSentsAux false [] l

/-- One application of `re.sub(r'[,;]\s*$', '', cand)`: remove a single
trailing `,`/`;` together with any whitespace after it. -/
def dropTrailSep (l : List Char) : List Char :=
  match (l.reverse.dropWhile pyIsSpace) with
  | c :: rest => if c = ',' || c = ';' then rest.reverse else l
  | [] => l

/-- `re.sub(r'\s+', ' ', l)`: collapse every whitespace run to one space. -/
def collapseWsAux : Bool → List Char → List Char
  | _, [] => []
  | inRun, c :: cs =>
    if pyIsSpace c then
      if inRun then collapseWsAux true cs else ' ' :: collapseWsAux true cs
    else c :: collapseWsAux false cs

def collapseWs (l : List Char) : List Char := collapseWsAux false l

/-! ## A backtracking regex matcher (Python `re` semantics) -/

/-- Regex syntax.  `star` is greedy `*`, `lstar` is lazy `*?`; bounded
repetitions are expanded with `reTimes`/`reUpTo` below. -/
inductive RE where
  | eps
  | cls (f : Char → Bool)
  | cat (a b : RE)
  | alt (a b : RE)
  | star (a : RE)
  | lstar (a : RE)
  | wb
  | grp (i : Nat) (a : RE)

/-- Python `\w` (ASCII). -/
def wordChar (c : Char) : Bool :=
  ('A' ≤ c && c ≤ 'Z') || ('a' ≤ c && c ≤ 'z') || ('0' ≤ c && c ≤ '9') || c = '_'

/-- `\b`: exactly one side of the position is a word character. -/
def wordBoundary (prev : Option Char) (s : List Char) : Bool :=
  (match prev with | none => false | some c => wordChar c) !=
  (match s with | [] => false | c :: _ => wordChar c)

/-- Captured groups: group index paired with captured characters
(most recent capture first). -/
abbrev Caps := List (Nat × List Char)

/-- Backtracking matcher in continuation style.  `prev` is the character just
before the current position (for `\b`), `s` the remaining input, `g` the
captures, and `k` the continuation receiving the state after this node.
Alternatives and lazy loops try the left/empty branch first, greedy loops try
to consume first; loop iterations must consume at least one character
(Python's empty-repeat cutoff).  Runs out of `fuel` to `none`. -/
def mrun : Nat → RE → Option Char → List Char → Caps →
    (Option Char → List Char → Caps → Option (List Char × Caps)) → Option (List Char × Caps)
  | 0, _, _, _, _, _ => none
  | Nat.succ _, .eps, p, s, g, k => k p s g
  | Nat.succ _, .cls f, _, s, g, k =>
    match s with
    | [] => none
    | c :: cs => if f c then k (some c) cs g else none
  | Nat.succ fu, .cat a b, p, s, g, k =>
    mrun fu a p s g (fun p1 s1 g1 => mrun fu b p1 s1 g1 k)
  | Nat.succ fu, .alt a b, p, s, g, k =>
    match mrun fu a p s g k with
    | some r => some r
    | none => mrun fu b p s g k
  | Nat.succ fu, .star a, p, s, g, k =>
    match mrun fu a p s g (fun p1 s1 g1 =>
        if s1.length < s.length then mrun fu (.star a) p1 s1 g1 k else none) with
    | some r => some r
    | none => k p s g
  | Nat.succ fu, .lstar a, p, s, g, k =>
    match k p s g with
    | some r => some r
    | none => mrun fu a p s g (fun p1 s1 g1 =>
        if s1.length < s.length then mrun fu (.lstar a) p1 s1 g1 k else none)
  | Nat.succ _, .wb, p, s, g, k => if wordBoundary p s then k p s g else none
  | Nat.succ fu, .grp i a, p, s, g, k =>
    mrun fu a p s g (fun p1 s1 g1 => k p1 s1 ((i, s.take (s.length - s1.length)) :: g1))

def reSize : RE → Nat
  | .eps => 1
  | .cls _ => 1
  | .cat a b => reSize a + reSize b + 1
  | .alt a b => reSize a + reSize b + 1
  | .star a => reSize a + 1
  | .lstar a => reSize a + 1
  | .wb => 1
  | .grp _ a => reSize a + 1

/-- Fuel that dominates the matcher's recursion depth on `s`. -/
def fuelFor (p : RE) (s : List Char) : Nat := (reSize p + 2) * (s.length + 2)

/-- Try to match `p` at the current position; returns remaining input and
captures of the (single, preferred) match. -/
def tryHere (fuel : Nat) (p : RE) (prev : Option Char) (s : List Char) :
    Option (List Char × Caps) :=
  mrun fuel p prev s [] (fun _ s1 g1 => some (s1, g1))

/-- `re.search` scan: try each start position left to right.  Returns
`(before-match, match, after-match, captures)`. -/
def searchFromAux (fuel : Nat) (p : RE) : Option Char → List Char → List Char →
    Option (List Char × List Char × List Char × Caps)
  | prev, preAcc, s =>
    match tryHere fuel p prev s with
    | some (rest, caps) => some (preAcc.reverse, s.take (s.length - rest.length), rest, caps)
    | none =>
      match s with
      | [] => none
      | c :: cs => searchFromAux fuel p (some c) (c :: preAcc) cs

def reSearch (p : RE) (s : List Char) : Option (List Char × List Char × List Char × Caps) :=
  searchFromAux (fuelFor p s) p none [] s

def reSearchB (p : RE) (s : List Char) : Bool := (reSearch p s).isSome

/-- `re.finditer`: successive non-overlapping matches; a zero-width match
advances the scan position by one, as in Python. -/
def findIterAux (p : RE) : Nat → Option Char → List Char → List (List Char)
  | 0, _, _ => []
  | Nat.succ fu, prev, s =>
    match searchFromAux (fuelFor p s) p prev [] s with
    | none => []
    | some (_, m, rest, _) =>
      match m with
      | [] =>
        match rest with
        | [] => [[]]
        | c :: cs => [] :: findIterAux p fu (some c) cs
      | d :: ds => (d :: ds) :: findIterAux p fu (some ((d :: ds).getLastD ' ')) rest

def reFindIter (p : RE) (s : List Char) : List (List Char) :=
  findIterAux p (s.length + 1) none s

/-- `match.group(i)` of a successful search. -/
def capStr (caps : Caps) (i : Nat) : List Char :=
  match caps.find? (fun pr => pr.1 = i) with
  | some pr => pr.2
  | none => []

/-! ## Transcription helpers for the patterns of the source -/

def rcat : List RE → RE
  | [] => .eps
  | [r] => r
  | r :: rs => .cat r (rcat rs)

def ralt : List RE → RE
  | [] => .cls (fun _ => false)
  | [r] => r
  | r :: rs => .alt r (ralt rs)

/-- `x?` (greedy). -/
def reOpt (r : RE) : RE := .alt r .eps

/-- `x+` (greedy). -/
def rePlus (r : RE) : RE := .cat r (.star r)

/-- `x+?` (lazy). -/
def reLazyPlus (r : RE) : RE := .cat r (.lstar r)

/-- `x{n}`. -/
def reTimes (n : Nat) (r : RE) : RE := rcat (List.replicate n r)

/-- `x{0,n}` (greedy). -/
def reUpTo : Nat → RE → RE
  | 0, _ => .eps
  | Nat.succ n, r => .alt (.cat r (reUpTo n r)) .eps

/-- `x{m,n}` (greedy). -/
def reRange (m n : Nat) (r : RE) : RE := .cat (reTimes m r) (reUpTo (n - m) r)

/-- Literal character. -/
def chrR (c : Char) : RE := .cls (fun d => d = c)

/-- Literal character under `re.IGNORECASE` (ASCII case folding). -/
def chrCI (c : Char) : RE := .cls (fun d => d.toLower = c.toLower)

def litR (s : String) : RE := rcat (s.data.map chrR)

def litCI (s : String) : RE := rcat (s.data.map chrCI)

/-- `[A-Za-z]`; also what `[A-Z]` matches under `re.IGNORECASE`. -/
def isAlphaAscii (c : Char) : Bool := ('A' ≤ c && c ≤ 'Z') || ('a' ≤ c && c ≤ 'z')

def isUpperAscii (c : Char) : Bool := 'A' ≤ c && c ≤ 'Z'

/-- `\d`. -/
def dC : RE := .cls Char.isDigit

/-- `\s`. -/
def spC : RE := .cls pyIsSpace

/-- `[A-Za-z]` (and `[A-Z]` with `re.IGNORECASE`). -/
def alC : RE := .cls isAlphaAscii

/-- `[A-Z]` without `re.IGNORECASE`. -/
def upC : RE := .cls isUpperAscii

/-- `[A-Za-z\s]`. -/
def alSpC : RE := .cls (fun c => isAlphaAscii c || pyIsSpace c)

/-- `[,\s]`. -/
def commaSpC : RE := .cls (fun c => c = ',' || pyIsSpace c)

/-- `[^.!?]`. -/
def notSentC : RE := .cls (fun c => !(c = '.' || c = '!' || c = '?'))

/-- `[A-Za-z0-9\s,.-]`. -/
def addrC : RE := .cls (fun c => isAlphaAscii c || c.isDigit || pyIsSpace c || c = ',' || c = '.' || c = '-')

/-- `[A-Za-z0-9-]`. -/
def suiteC : RE := .cls (fun c => isAlphaAscii c || c.isDigit || c = '-')

/-- `Xyz\.?` (ignorecase literal with optional dot). -/
def dotOpt (s : String) : RE := .cat (litCI s) (reOpt (chrR '.'))

/-- `Street|St\.?|Avenue|Ave\.?|Road|Rd\.?|Lane|Ln\.?|Drive|Dr\.?|Boulevard|Blvd\.?`
(the suffix list of `has_street` and of scanner pattern 4). -/
def sfxBase : List RE :=
  [litCI "Street", dotOpt "St", litCI "Avenue", dotOpt "Ave", litCI "Road", dotOpt "Rd",
   litCI "Lane", dotOpt "Ln", litCI "Drive", dotOpt "Dr", litCI "Boulevard", dotOpt "Blvd"]

/-- The suffix list extended with `Circle…Pkwy\.?` (address-line extraction and
scanner pattern 2). -/
def sfxMid : List RE :=
  sfxBase ++
  [litCI "Circle", dotOpt "Cir", litCI "Court", dotOpt "Ct", litCI "Place", dotOpt "Pl",
   litCI "Way", litCI "Parkway", dotOpt "Pkwy"]

/-- The suffix list further extended with `Highway|Hwy\.?` (scanner pattern 1). -/
def sfxHwy : List RE := sfxMid ++ [litCI "Highway", dotOpt "Hwy"]

/-- The 50 state names of scanner pattern 1, in source order. -/
def stateNames : List String :=
  ["Alabama", "Alaska", "Arizona", "Arkansas", "California", "Colorado", "Connecticut",
   "Delaware", "Florida", "Georgia", "Hawaii", "Idaho", "Illinois", "Indiana", "Iowa",
   "Kansas", "Kentucky", "Louisiana", "Maine", "Maryland", "Massachusetts", "Michigan",
   "Minnesota", "Mississippi", "Missouri", "Montana", "Nebraska", "Nevada",
   "New Hampshire", "New Jersey", "New Mexico", "New York", "North Carolina",
   "North Dakota", "Ohio", "Oklahoma", "Oregon", "Pennsylvania", "Rhode Island",
   "South Carolina", "South Dakota", "Tennessee", "Texas", "Utah", "Vermont", "Virginia",
   "Washington", "West Virginia", "Wisconsin", "Wyoming"]

/-- `\d{5}`. -/
def zip5 : RE := reTimes 5 dC

/-- `(?:-\d{4})?`. -/
def zip4opt : RE := reOpt (.cat (chrR '-') (reTimes 4 dC))

/-! ### The regexes of `_mock_address_validation` -/

/-- `\b\d{1,5}\b`. -/
def reHasNumber : RE := rcat [.wb, reRange 1 5 dC, .wb]

/-- `\b(?:Street|St\.?|…|Blvd\.?)\b` with `re.IGNORECASE`. -/
def reHasStreet : RE := rcat [.wb, ralt sfxBase, .wb]

/-- `\b[A-Za-z\s]+,\s*[A-Z]{2}\s+\d{5}(?:-\d{4})?\b` (no flags, so `[A-Z]` is
upper-case only). -/
def reHasCSZ : RE :=
  rcat [.wb, rePlus alSpC, chrR ',', .star spC, reTimes 2 upC, rePlus spC, zip5, zip4opt, .wb]

/-- `\bP\.?O\.?\s+Box\s+\d+\b` with `re.IGNORECASE`. -/
def reHasPO : RE :=
  rcat [.wb, chrCI 'P', reOpt (chrR '.'), chrCI 'O', reOpt (chrR '.'), rePlus spC,
        litCI "Box", rePlus spC, rePlus dC, .wb]

/-- `\b\d{1,5}\s+[A-Za-z0-9\s,.-]+?(?:Street|…|Pkwy\.?)` with `re.IGNORECASE`
(address-line extraction). -/
def reAddrLine : RE :=
  rcat [.wb, reRange 1 5 dC, rePlus spC, reLazyPlus addrC, ralt sfxMid]

/-- `\b([A-Za-z\s]+),\s*([A-Z]{2})\s+(\d{5}(?:-\d{4})?)\b` (no flags;
city/state/zip extraction with capture groups). -/
def reCSZGroups : RE :=
  rcat [.wb, .grp 1 (rePlus alSpC), chrR ',', .star spC, .grp 2 (reTimes 2 upC),
        rePlus spC, .grp 3 (.cat zip5 zip4opt), .wb]

/-! ### The regexes of `find_address_candidates`
All four are compiled with `re.IGNORECASE | re.MULTILINE | re.DOTALL`; the
patterns contain no `.`/`^`/`$` metacharacters, so only `IGNORECASE` is
observable (in particular `[A-Z]{2}` matches any two letters here). -/

/-- Scanner pattern 1: full address with state name or abbreviation and ZIP. -/
def reP1 : RE :=
  rcat [.wb, reRange 1 5 dC, rePlus spC, reLazyPlus addrC, ralt sfxHwy, .wb,
        .lstar notSentC, rePlus alSpC, rePlus commaSpC,
        .alt (reTimes 2 alC) (ralt (stateNames.map litCI)),
        rePlus spC, zip5, zip4opt]

/-- `(?:Suite|Ste\.?|Apt\.?|Apartment|Unit|#)`. -/
def suiteKw : RE :=
  ralt [litCI "Suite", dotOpt "Ste", dotOpt "Apt", litCI "Apartment", litCI "Unit", chrR '#']

/-- Scanner pattern 2: address line with optional suite/apt, state abbreviation
and ZIP. -/
def reP2 : RE :=
  rcat [.wb, reRange 1 5 dC, rePlus spC, reLazyPlus addrC, ralt sfxMid,
        reOpt (rcat [.star spC, reOpt (chrR ','), .star spC, suiteKw, .star spC, rePlus suiteC]),
        .lstar notSentC, rePlus alSpC, rePlus commaSpC, reTimes 2 alC,
        rePlus spC, zip5, zip4opt]

/-- Scanner pattern 3: PO-Box addresses. -/
def reP3 : RE :=
  rcat [.wb,
        .alt (rcat [chrCI 'P', reOpt (chrR '.'), chrCI 'O', reOpt (chrR '.'), rePlus spC, litCI "Box"])
             (rcat [litCI "Post", rePlus spC, litCI "Office", rePlus spC, litCI "Box"]),
        rePlus spC, rePlus dC, .lstar notSentC, rePlus alSpC, rePlus commaSpC,
        reTimes 2 alC, rePlus spC, zip5, zip4opt]

/-- Scanner pattern 4: bare number + street-suffix. -/
def reP4 : RE :=
  rcat [.wb, reRange 1 5 dC, rePlus spC, alC, reRange 5 50 addrC, ralt sfxBase]

def address_patterns : List RE := [reP1, reP2, reP3, reP4]

/-- `\b\d{1,5}\s` (sentence heuristic, no flags). -/
def reSentNum : RE := rcat [.wb, reRange 1 5 dC, spC]

/-- `\b(?:Street|St|Avenue|Ave|Road|Rd|Lane|Ln|Drive|Dr|Boulevard|Blvd)\b`
with `re.IGNORECASE` (sentence heuristic). -/
def reSentStreet : RE :=
  rcat [.wb,
        ralt [litCI "Street", litCI "St", litCI "Avenue", litCI "Ave", litCI "Road",
              litCI "Rd", litCI "Lane", litCI "Ln", litCI "Drive", litCI "Dr",
              litCI "Boulevard", litCI "Blvd"],
        .wb]

/-! ## Data model of the recognition response -/

structure ParsedAddress where
  address_line1 : String
  city_locality : String
  state_province : String
  postal_code : String
  country_code : String
deriving DecidableEq, Repr

structure EntitySpan where
  etype : String
  start_index : Option Nat
  end_index : Option Nat
deriving DecidableEq, Repr

/-- A parsed recognition payload: `score` is `.get('score', 0)` (absent key
reads as 0), `address` is the `address` member (absent or empty dict is
`none`), `entities` the optional entity list. -/
structure RecognizeResponse where
  score : Option ℚ
  address : Option ParsedAddress
  entities : List EntitySpan
deriving DecidableEq, Repr

/-! ## `AddressParser` methods -/

/-- The rational `w / 10`, built in reduced form so that the kernel can
evaluate it (the library's `Rat` division does not reduce definitionally). -/
def ratOfTenths (w : Nat) : ℚ :=
  Rat.mk' (Int.ofNat (w / Nat.gcd w 10)) (10 / Nat.gcd w 10)
    (by
      have hpos : 0 < Nat.gcd w 10 := Nat.gcd_pos_of_pos_right _ (by norm_num)
      have hle : Nat.gcd w 10 ≤ 10 := Nat.le_of_dvd (by norm_num) (Nat.gcd_dvd_right w 10)
      exact Nat.ne_of_gt (Nat.div_pos hle hpos))
    (by
      have hpos : 0 < Nat.gcd w 10 := Nat.gcd_pos_of_pos_right _ (by norm_num)
      simpa [Int.natAbs_ofNat] using Nat.coprime_div_gcd_div_gcd (m := w) (n := 10) hpos)

theorem ratOfTenths_eq (w : Nat) : ratOfTenths w = (w : ℚ) / 10 := by
  have hpos : 0 < Nat.gcd w 10 := Nat.gcd_pos_of_pos_right _ (by norm_num)
  obtain ⟨a, ha⟩ := Nat.gcd_dvd_left w 10
  obtain ⟨b, hb⟩ := Nat.gcd_dvd_right w 10
  have hg : ((Nat.gcd w 10 : ℚ)) ≠ 0 := by exact_mod_cast hpos.ne'
  have h1 : w / Nat.gcd w 10 = a := Nat.div_eq_of_eq_mul_right hpos ha
  have h2 : 10 / Nat.gcd w 10 = b := Nat.div_eq_of_eq_mul_right hpos hb
  have hw' : (w : ℚ) = (Nat.gcd w 10 : ℚ) * a := by exact_mod_cast ha
  have h10' : (10 : ℚ) = (Nat.gcd w 10 : ℚ) * b := by exact_mod_cast hb
  rw [ratOfTenths, Rat.mk'_eq_divInt, Rat.divInt_eq_div, h1, h2]
  simp only [Int.ofNat_eq_natCast, Int.cast_natCast]
  rw [hw', h10', mul_div_mul_left _ _ hg]

/-- The literal `0.5` (`confidence_threshold`), in kernel-evaluable form. -/
def halfQ : ℚ := Rat.mk' 1 2 (by decide) (by decide)

theorem halfQ_eq : halfQ = 1 / 2 := by
  rw [halfQ, Rat.mk'_eq_divInt, Rat.divInt_eq_div]
  norm_num

/-- `_mock_address_validation`: the deterministic offline scorer.  The weight
sum `0.3·has_number + 0.4·has_street + 0.3·has_city_state_zip + 0.5·has_po_box`
is computed in tenths and converted exactly; for these one-decimal weights the
source's float sums agree with the exact rationals at every comparison and at
the stored value. -/
def _mock_address_validation (text : List Char) : Option RecognizeResponse :=
  let has_number := reSearchB reHasNumber text
  let has_street := reSearchB reHasStreet text
  let has_city_state_zip := reSearchB reHasCSZ text
  let has_po_box := reSearchB reHasPO text
  let score : ℚ := ratOfTenths
    ((if has_number then 3 else 0) + (if has_street then 4 else 0) +
     (if has_city_state_zip then 3 else 0) + (if has_po_box then 5 else 0))
  if (has_number && has_street) || has_po_box then
    let address_line1 : List Char :=
      match reSearch reAddrLine text with
      | some r => pyStrip r.2.1
      | none => []
    let csz :=
      match reSearch reCSZGroups text with
      | some r => (pyStrip (capStr r.2.2.2 1), capStr r.2.2.2 2, capStr r.2.2.2 3)
      | none => ([], [], [])
    some { score := some score,
           address := some { address_line1 := ⟨address_line1⟩, city_locality := ⟨csz.1⟩,
                             state_province := ⟨csz.2.1⟩, postal_code := ⟨csz.2.2⟩,
                             country_code := "US" },
           entities := [] }
  else none

/-- `is_valid_address`. -/
def is_valid_address (parsed : Option RecognizeResponse) : Bool :=
  match parsed with
  | none => false
  | some resp =>
    match resp.address with
    | none => false
    | some a =>
      if a.address_line1 = "" then false
      else
        let has_additional :=
          decide (a.city_locality ≠ "") || decide (a.state_province ≠ "") ||
          decide (a.postal_code ≠ "")
        has_additional && decide (halfQ ≤ resp.score.getD 0)

/-- The candidates produced by the four pattern tiers (pooled in tier order,
each stripped, with one trailing `,`/`;` removed, kept when longer than 15). -/
def patternCandidates (text : List Char) : List (List Char) :=
  (address_patterns.map (fun p =>
    (reFindIter p text).filterMap (fun m =>
      let cand := dropTrailSep (pyStrip m)
      if 15 < cand.length then some cand else none))).flatten

/-- The candidates proposed by the sentence-level heuristic. -/
def sentenceCandidates (text : List Char) : List (List Char) :=
  (splitSentences text).filterMap (fun s0 =>
    let s := pyStrip s0
    if 20 < s.length && reSearchB reSentNum s && reSearchB reSentStreet s then some s
    else none)

/-- All candidates, pooled before deduplication (pattern tiers in sequence,
then the sentence heuristic). -/
def pooledCandidates (text : List Char) : List (List Char) :=
  patternCandidates text ++ sentenceCandidates text

/-- `re.sub(r'\s+', ' ', candidate.lower().strip())`. -/
def normalizeCand (c : List Char) : List Char := collapseWs (pyStrip (c.map Char.toLower))

/-- The dedup loop of `find_address_candidates` (`seen` set as a list). -/
def dedupCandidates : List (List Char) → List (List Char) → List (List Char)
  | [], _ => []
  | c :: rest, seen =>
    let cl := normalizeCand c
    if !(seen.contains cl) && 15 < c.length then c :: dedupCandidates rest (cl :: seen)
    else dedupCandidates rest seen

/-- `find_address_candidates`. -/
def find_address_candidates (text : List Char) : List (List Char) :=
  dedupCandidates (pooledCandidates text) []

/-- `<address>…</address>` wrapping. -/
def wrapAddr (a : List Char) : List Char := "<address>".data ++ a ++ "</address>".data

/-- `_extract_address_text_from_entities`. -/
def extractAddressText (resp : RecognizeResponse) (original : List Char) : Option (List Char) :=
  if resp.entities.isEmpty then none
  else
    let spans := resp.entities.filterMap (fun e =>
      if e.etype ∈ ["address", "address_line", "city_locality", "state_province", "postal_code"] then
        match e.start_index, e.end_index with
        | some st, some en => some (st, en)
        | _, _ => none
      else none)
    match spans with
    | [] => none
    | sp :: rest =>
      let minS := rest.foldl (fun m pr => min m pr.1) sp.1
      let maxE := rest.foldl (fun m pr => max m pr.2) sp.2
      let addrText := pyStrip ((original.drop minS).take (maxE - minS))
      if 10 < addrText.length && addrText.any Char.isDigit then some addrText else none

/-- `tag_addresses_in_text`, instrumented: parameterized by the validator the
candidates are sent to (`self.parse_address_with_shipengine` in the source)
and returning, besides the rewritten text, how many times the candidate
scanner and the validator were invoked. -/
def tagAddressesCounted (validate : List Char → Option RecognizeResponse) (text : List Char) :
    List Char × Nat × Nat :=
  if text = [] || pyStrip text = [] then (text, 0, 0)
  else
    let candidates := find_address_candidates text
    if candidates = [] then
      let parsed := validate text
      if is_valid_address parsed then
        match parsed with
        | some resp =>
          match extractAddressText resp text with
          | some addrText => (pyReplace text addrText (wrapAddr addrText), 1, 1)
          | none => (text, 1, 1)
        | none => (text, 1, 1)
      else (text, 1, 1)
    else
      let r := candidates.foldl (fun acc cand =>
        let parsed := validate cand
        if is_valid_address parsed then
          if !(pyContains acc.1 (wrapAddr cand)) then
            (pyReplace acc.1 cand (wrapAddr cand), acc.2 + 1)
          else (acc.1, acc.2 + 1)
        else (acc.1, acc.2 + 1)) (text, 0)
      (r.1, 1, r.2)

/-- `tag_addresses_in_text` in offline (`mock_mode = True`) configuration,
where every validation goes to `_mock_address_validation`. -/
def tag_addresses_in_text (text : List Char) : List Char :=
  (tagAddressesCounted _mock_address_validation text).1

/-- Observable outcomes of the remote ShipEngine request. -/
inductive ApiOutcome where
  | ok (resp : RecognizeResponse)
  | httpStatus (code : Nat)
  | transportError
  | malformedJson
deriving DecidableEq

/-- `parse_address_with_shipengine` as a function of the request outcome:
`ok resp` is an HTTP 200 whose body parsed to `resp`; `httpStatus c` is a
non-200 status `c`; `transportError` is a raised
`requests.exceptions.RequestException` (connection failure or timeout);
`malformedJson` is a `json.JSONDecodeError` from parsing a 200 body. -/
def parse_address_with_shipengine (mock_mode : Bool) (text : List Char) (outcome : ApiOutcome) :
    Option RecognizeResponse :=
  if mock_mode then _mock_address_validation text
  else
    match outcome with
    | .ok resp => if resp.address.isSome then some resp else none
    | .httpStatus code =>
      if code = 402 then _mock_address_validation text
      else if code = 401 then _mock_address_validation text
      else none
    | .transportError => _mock_address_validation text
    | .malformedJson => none

/-! ## `transform_xml_to_html_links` (tagged_text_to_geotext.py)

Each of the four `re.sub` passes of the source is embedded as a left-to-right
scan (`subAll`) with a deterministic parser for its pattern.  The parsers are
exact for these patterns: the `(GPE|LOC|address)` alternation is prefix-free
and is tried in source order with the back-referenced close tag `</\1>`
expanded per alternative; each `[^"]+` / `[^<]+` class is greedy up to its
mandatory delimiter (`"` resp. `<`), which the class excludes, so its extent
is forced; each `\s+` is a maximal whitespace run, forced by the following
letter.  `re.sub` tries each start position left to right and copies one
character on failure, which is exactly `subAll`. -/

/-- Expect a literal at the head of the input, returning the rest. -/
def dropLit : List Char → List Char → Option (List Char)
  | [], s => some s
  | _ :: _, [] => none
  | c :: cs, d :: ds => if d = c then dropLit cs ds else none

/-- `(GPE|LOC|address)`, alternatives in source order. -/
def scanKind (s : List Char) : Option (List Char × List Char) :=
  match dropLit "GPE".data s with
  | some r => some ("GPE".data, r)
  | none =>
    match dropLit "LOC".data s with
    | some r => some ("LOC".data, r)
    | none =>
      match dropLit "address".data s with
      | some r => some ("address".data, r)
      | none => none

/-- `\s+` (forced maximal run). -/
def spaces1 : List Char → Option (List Char)
  | [] => none
  | c :: cs => if pyIsSpace c then some (cs.dropWhile pyIsSpace) else none

/-- Continue `[^"]+"`: characters up to and consuming the closing quote. -/
def scanValCore : List Char → Option (List Char × List Char)
  | [] => none
  | c :: cs =>
    if c = '"' then some ([], cs)
    else
      match scanValCore cs with
      | some (v, r) => some (c :: v, r)
      | none => none

/-- `([^"]+)"`: at least one non-quote character, then the closing quote. -/
def scanVal : List Char → Option (List Char × List Char)
  | [] => none
  | c :: cs =>
    if c = '"' then none
    else
      match scanValCore cs with
      | some (v, r) => some (c :: v, r)
      | none => none

/-- Continue `[^<]+` up to (not consuming) the next `<`. -/
def scanInnerCore : List Char → Option (List Char × List Char)
  | [] => none
  | c :: cs =>
    if c = '<' then some ([], c :: cs)
    else
      match scanInnerCore cs with
      | some (v, r) => some (c :: v, r)
      | none => none

/-- `([^<]+)` before a close tag: at least one non-`<` character, stopping at
the next `<`. -/
def scanInner : List Char → Option (List Char × List Char)
  | [] => none
  | c :: cs =>
    if c = '<' then none
    else
      match scanInnerCore cs with
      | some (v, r) => some (c :: v, r)
      | none => none

/-- The produced hyperlink
`<a href="https://www.arcgis.com/apps/mapviewer/index.html?center=LON,LAT&level=Z&marker=LON,LAT" target="_blank">TEXT</a>`. -/
def anchorFor (lat lon zoom txt : List Char) : List Char :=
  "<a href=\"https://www.arcgis.com/apps/mapviewer/index.html?center=".data ++ lon ++
  ",".data ++ lat ++ "&level=".data ++ zoom ++ "&marker=".data ++ lon ++ ",".data ++ lat ++
  "\" target=\"_blank\">".data ++ txt ++ "</a>".data

/-- `replace_with_html_link`. -/
def currentRepl (lat lon zoom txt : List Char) : List Char :=
  if lat = "none".data || lon = "none".data || zoom = "none".data then txt
  else anchorFor lat lon zoom txt

/-- `replace_legacy_with_html_link` (zoom level fixed at 16). -/
def legacyRepl (lat lon txt : List Char) : List Char :=
  if lat = "none".data || lon = "none".data then txt
  else anchorFor lat lon "16".data txt

/-- `\s+name="([^"]+)"`: one attribute (used with `name` = `lat`, `lon`,
`zoom_level`), returning the value and the rest. -/
def scanAttr (name : String) (s : List Char) : Option (List Char × List Char) :=
  (spaces1 s).bind fun s1 =>
  (dropLit (name ++ "=\"").data s1).bind fun s2 =>
  scanVal s2

/-- `([^<]+)</K>`: inner text followed by the close tag of kind `k`. -/
def scanClose (k : List Char) (s : List Char) : Option (List Char × List Char) :=
  (scanInner s).bind fun ts =>
  (dropLit ("</".data ++ k ++ ">".data) ts.2).bind fun s1 =>
  some (ts.1, s1)

/-- One match attempt of
`<(GPE|LOC|address)\s+lat="([^"]+)"\s+lon="([^"]+)"\s+zoom_level="([^"]+)">([^<]+)</\1>`,
returning the replacement and the rest of the input. -/
def tryCur (s0 : List Char) : Option (List Char × List Char) :=
  (dropLit "<".data s0).bind fun s1 =>
  (scanKind s1).bind fun ks =>
  (scanAttr "lat" ks.2).bind fun lats =>
  (scanAttr "lon" lats.2).bind fun lons =>
  (scanAttr "zoom_level" lons.2).bind fun zooms =>
  (dropLit ">".data zooms.2).bind fun s2 =>
  (scanClose ks.1 s2).bind fun txts =>
  some (currentRepl lats.1 lons.1 zooms.1 txts.1, txts.2)

/-- One match attempt of the legacy pattern
`<(GPE|LOC|address)\s+lat="([^"]+)"\s+lon="([^"]+)">([^<]+)</\1>`. -/
def tryLeg (s0 : List Char) : Option (List Char × List Char) :=
  (dropLit "<".data s0).bind fun s1 =>
  (scanKind s1).bind fun ks =>
  (scanAttr "lat" ks.2).bind fun lats =>
  (scanAttr "lon" lats.2).bind fun lons =>
  (dropLit ">".data lons.2).bind fun s2 =>
  (scanClose ks.1 s2).bind fun txts =>
  some (legacyRepl lats.1 lons.1 txts.1, txts.2)

/-- One match attempt of `<(GPE|LOC|address)>([^<]+)</\1>` (replacement `\2`). -/
def trySimple (s0 : List Char) : Option (List Char × List Char) :=
  (dropLit "<".data s0).bind fun s1 =>
  (scanKind s1).bind fun ks =>
  (dropLit ">".data ks.2).bind fun s2 =>
  scanClose ks.1 s2

/-- One match attempt of `<address>([^<]+)</address>` (replacement `\1`). -/
def tryAddrOnly (s0 : List Char) : Option (List Char × List Char) :=
  (dropLit "<address>".data s0).bind fun s1 =>
  (scanInner s1).bind fun ts =>
  (dropLit "</address>".data ts.2).bind fun s2 =>
  some (ts.1, s2)

/-- `re.sub` scan: at each position try the pattern; on a match emit the
replacement and continue after it, otherwise copy one character. -/
def applySub (t : List Char → Option (List Char × List Char)) : Nat → List Char → List Char
  | 0, s => s
  | Nat.succ _, [] => []
  | Nat.succ fu, c :: cs =>
    match t (c :: cs) with
    | some (r, rest) => r ++ applySub t fu rest
    | none => c :: applySub t fu cs

def subAll (t : List Char → Option (List Char × List Char)) (s : List Char) : List Char :=
  applySub t s.length s

/-- `transform_xml_to_html_links`: the four passes in source order (the
source's `if … > 0` guards around passes 3 and 4 only skip a no-op). -/
def transform_xml_to_html_links (s : List Char) : List Char :=
  subAll tryAddrOnly (subAll trySimple (subAll tryLeg (subAll tryCur s)))

/-! ## Basic lemmas -/

theorem pyStrip_eq_nil_of_all_space {l : List Char} (h : ∀ c ∈ l, pyIsSpace c = true) :
    pyStrip l = [] := by
  have h1 : l.dropWhile pyIsSpace = [] := List.dropWhile_eq_nil_iff.mpr h
  simp [pyStrip, h1]

theorem halfQ_le_getD_some {q : ℚ} (h : halfQ ≤ q) : decide (halfQ ≤ q) = true :=
  decide_eq_true h

/-! ## Claim C1 -/

/-- C1 (as stated, counterexample): a 5xx status does not delegate to the
offline scorer — on text "1 Elm St, Ab, CA 90210" with HTTP status 500 the
function returns `none` while the offline scorer returns a result. -/
theorem C1_parse_fallback_cex :
    parse_address_with_shipengine false "1 Elm St, Ab, CA 90210".data (.httpStatus 500) = none ∧
    _mock_address_validation "1 Elm St, Ab, CA 90210".data ≠ none := by
  constructor
  · rfl
  · decide

/-- C1 (amended): `parse_address_with_shipengine` never raises (it is a total
function of the request outcome); it delegates to `_mock_address_validation`
and returns its result exactly on HTTP 401, HTTP 402 and transport
failures/timeouts; on any other non-200 status (5xx included) and on a
malformed 200 payload it returns `none`; a 200 body with an address is
returned, without an address it yields `none`. -/
theorem C1_parse_fallback (text : List Char) :
    (parse_address_with_shipengine false text .transportError = _mock_address_validation text) ∧
    (∀ c : Nat, c = 401 ∨ c = 402 →
      parse_address_with_shipengine false text (.httpStatus c) = _mock_address_validation text) ∧
    (∀ c : Nat, c ≠ 401 → c ≠ 402 →
      parse_address_with_shipengine false text (.httpStatus c) = none) ∧
    (parse_address_with_shipengine false text .malformedJson = none) ∧
    (∀ resp : RecognizeResponse,
      parse_address_with_shipengine false text (.ok resp) =
        if resp.address.isSome then some resp else none) := by
  refine ⟨rfl, ?_, ?_, rfl, fun resp => rfl⟩
  · rintro c (rfl | rfl) <;> rfl
  · intro c h1 h2
    simp [parse_address_with_shipengine, h1, h2]

/-- C1 witness: the amended behaviour at concrete inputs. -/
theorem C1_parse_fallback_wit :
    parse_address_with_shipengine false "1 Elm St".data .transportError =
      _mock_address_validation "1 Elm St".data ∧
    parse_address_with_shipengine false "1 Elm St".data (.httpStatus 503) = none :=
  ⟨(C1_parse_fallback "1 Elm St".data).1,
   (C1_parse_fallback "1 Elm St".data).2.2.1 503 (by decide) (by decide)⟩

/-! ## Claim C3 -/

/-- C3 (confirmed): `is_valid_address` accepts a response exactly when it
carries an address with a non-empty address line, at least one of
city/state/postal code non-empty, and score at least 0.5; a response whose
address has an empty address line is never valid, regardless of score. -/
theorem C3_is_valid_address_iff (resp : RecognizeResponse) :
    (is_valid_address (some resp) = true ↔
      ∃ a, resp.address = some a ∧ a.address_line1 ≠ "" ∧
        (a.city_locality ≠ "" ∨ a.state_province ≠ "" ∨ a.postal_code ≠ "") ∧
        (1 : ℚ)/2 ≤ resp.score.getD 0) ∧
    (∀ a, resp.address = some a → a.address_line1 = "" →
      is_valid_address (some resp) = false) := by
  obtain ⟨sc, addr, ents⟩ := resp
  constructor
  · cases addr with
    | none => simp [is_valid_address]
    | some a =>
      by_cases hl : a.address_line1 = "" <;>
        simp [is_valid_address, hl, halfQ_eq, or_assoc, and_assoc]
  · intro a ha hl
    cases addr with
    | none => simp at ha
    | some b =>
      obtain rfl : b = a := by simpa using ha
      simp [is_valid_address, hl]

/-- A concrete full response used to exercise the validity predicate. -/
def respFull : RecognizeResponse where
  score := some (ratOfTenths 10)
  address := some { address_line1 := "1 Elm St", city_locality := "Ab", state_province := "CA", postal_code := "90210", country_code := "US" }
  entities := []

/-- The same response with the address line emptied. -/
def respNoLine : RecognizeResponse where
  score := some (ratOfTenths 10)
  address := some { address_line1 := "", city_locality := "Ab", state_province := "CA", postal_code := "90210", country_code := "US" }
  entities := []

/-- C3 witness: a concrete response (score 1, full address) is valid, and the
same response with the address line emptied is invalid. -/
theorem C3_is_valid_address_wit :
    is_valid_address (some respFull) = true ∧ is_valid_address (some respNoLine) = false := by
  constructor
  · exact (C3_is_valid_address_iff respFull).1.mpr
      ⟨_, rfl, by decide, Or.inl (by decide), by rw [respFull]; rw [ratOfTenths_eq]; norm_num⟩
  · exact (C3_is_valid_address_iff respNoLine).2 _ rfl rfl

/-! ## Claim C9 -/

/-- The gate of the offline scorer: (number AND street) OR po-box. -/
def mockGate (text : List Char) : Bool :=
  (reSearchB reHasNumber text && reSearchB reHasStreet text) || reSearchB reHasPO text

/-- The weight sum of the offline scorer, in tenths. -/
def mockScoreW (text : List Char) : Nat :=
  (if reSearchB reHasNumber text then 3 else 0) + (if reSearchB reHasStreet text then 4 else 0) +
  (if reSearchB reHasCSZ text then 3 else 0) + (if reSearchB reHasPO text then 5 else 0)

/-- The address-line extraction of the offline scorer. -/
def mockLine (text : List Char) : List Char :=
  match reSearch reAddrLine text with
  | some r => pyStrip r.2.1
  | none => []

/-- The city/state/zip extraction of the offline scorer. -/
def mockCSZ (text : List Char) : List Char × List Char × List Char :=
  match reSearch reCSZGroups text with
  | some r => (pyStrip (capStr r.2.2.2 1), capStr r.2.2.2 2, capStr r.2.2.2 3)
  | none => ([], [], [])

/-- The record the offline scorer returns when its gate holds. -/
def mockResp (text : List Char) : RecognizeResponse where
  score := some (ratOfTenths (mockScoreW text))
  address := some { address_line1 := ⟨mockLine text⟩, city_locality := ⟨(mockCSZ text).1⟩, state_province := ⟨(mockCSZ text).2.1⟩, postal_code := ⟨(mockCSZ text).2.2⟩, country_code := "US" }
  entities := []

theorem mock_eq (text : List Char) :
    _mock_address_validation text = if mockGate text then some (mockResp text) else none := rfl

theorem half_le_ratOfTenths (bn bs bc bp : Bool) (hg : ((bn && bs) || bp) = true) :
    (1 : ℚ)/2 ≤ ratOfTenths ((if bn then 3 else 0) + (if bs then 4 else 0) +
      (if bc then 3 else 0) + (if bp then 5 else 0)) := by
  rcases bn <;> rcases bs <;> rcases bc <;> rcases bp <;>
    simp_all [ratOfTenths_eq] <;> norm_num

/-- C9 (confirmed): whenever the offline scorer returns a result its score is
at least 0.5 (the gate (number AND street) OR po-box forces weight sum >= 0.5),
so the 0.5 threshold in `is_valid_address` never rejects an offline result:
validity of an offline result is decided solely by the extracted components. -/
theorem C9_mock_score_never_rejected (text : List Char) (resp : RecognizeResponse)
    (h : _mock_address_validation text = some resp) :
    (1 : ℚ)/2 ≤ resp.score.getD 0 ∧
    ∃ a, resp.address = some a ∧
      (is_valid_address (some resp) = true ↔
        (a.address_line1 ≠ "" ∧
         (a.city_locality ≠ "" ∨ a.state_province ≠ "" ∨ a.postal_code ≠ ""))) := by
  rw [mock_eq] at h
  by_cases hg : mockGate text = true
  case neg => simp [hg] at h
  case pos =>
    rw [if_pos hg] at h
    injection h with h'
    subst h'
    have hhalf : (1 : ℚ)/2 ≤ ratOfTenths (mockScoreW text) :=
      half_le_ratOfTenths _ _ _ _ hg
    refine ⟨by simpa [mockResp] using hhalf, ?_⟩
    refine ⟨_, rfl, ?_⟩
    have hsc : decide (halfQ ≤ (mockResp text).score.getD 0) = true := by
      refine decide_eq_true ?_
      rw [halfQ_eq]
      simpa [mockResp] using hhalf
    by_cases hl : (⟨mockLine text⟩ : String) = "" <;>
      simp [is_valid_address, mockResp, hl, hsc, and_assoc, or_assoc] <;>
      simp [mockResp] at hsc <;> simp [hsc]

/-- C9 witness: the offline scorer on "1 Elm St, Ab, CA 90210" produces a
concrete result whose score passes the threshold and whose validity is the
component condition. -/
theorem C9_mock_score_never_rejected_wit :
    _mock_address_validation "1 Elm St, Ab, CA 90210".data = some respFull ∧
    (1 : ℚ)/2 ≤ respFull.score.getD 0 := by
  have h : _mock_address_validation "1 Elm St, Ab, CA 90210".data = some respFull := by decide
  exact ⟨h, (C9_mock_score_never_rejected _ _ h).1⟩

/-! ## Claim C10 -/

/-- C10 (confirmed): on empty or whitespace-only input,
`tag_addresses_in_text` returns the input unchanged and invokes neither the
candidate scanner nor the validator (the counted instrumented form, for any
validator strategy). -/
theorem C10_blank_early_return (validate : List Char → Option RecognizeResponse)
    (text : List Char) (h : ∀ c ∈ text, pyIsSpace c = true) :
    tagAddressesCounted validate text = (text, 0, 0) := by
  have hs : pyStrip text = [] := pyStrip_eq_nil_of_all_space h
  unfold tagAddressesCounted
  simp [hs]

/-- C10 witness: blank input (spaces and a tab). -/
theorem C10_blank_early_return_wit :
    tagAddressesCounted _mock_address_validation "  \t ".data = ("  \t ".data, 0, 0) :=
  C10_blank_early_return _ _ (by decide)

/-! ## Claim C2 -/

/-- C2 (the code violates the claim): on the input
`<address>1 Elm St, Ab, CA 90210</address>`, which already contains the
tagged span, the sentence heuristic re-discovers the whole tagged string as a
candidate, the offline validator accepts it, the exact-wrap guard does not
fire (the wrap of the larger candidate is not present), and the tagger
produces the nested wrap `<address><address>X</address></address>`. -/
theorem C2_nested_wrap_bug :
    tag_addresses_in_text (wrapAddr "1 Elm St, Ab, CA 90210".data) =
      wrapAddr (wrapAddr "1 Elm St, Ab, CA 90210".data) := by decide

/-! ## Claim C5 -/

/-- The offline result for Scenario A's input. -/
def respScenA : RecognizeResponse where
  score := some (ratOfTenths 10)
  address := some { address_line1 := "123 Main Street", city_locality := "Anytown", state_province := "CA", postal_code := "90210", country_code := "US" }
  entities := []

/-- C5 (confirmed): Scenario A.  On "123 Main Street, Anytown, CA 90210" the
offline scorer sees the number, street-suffix and City-ST-ZIP signals and no
PO-Box, scores 0.3 + 0.4 + 0.3 = 1.0 ≥ 0.5, the result is valid, and the
offline tagger wraps the span in an `<address>` tag. -/
theorem C5_scenario_a :
    reSearchB reHasNumber "123 Main Street, Anytown, CA 90210".data = true ∧
    reSearchB reHasStreet "123 Main Street, Anytown, CA 90210".data = true ∧
    reSearchB reHasCSZ "123 Main Street, Anytown, CA 90210".data = true ∧
    reSearchB reHasPO "123 Main Street, Anytown, CA 90210".data = false ∧
    _mock_address_validation "123 Main Street, Anytown, CA 90210".data = some respScenA ∧
    respScenA.score = some ((3 : ℚ)/10 + 4/10 + 3/10) ∧
    ((3 : ℚ)/10 + 4/10 + 3/10 = 1) ∧
    (1 : ℚ)/2 ≤ 1 ∧
    is_valid_address (_mock_address_validation "123 Main Street, Anytown, CA 90210".data) = true ∧
    tag_addresses_in_text "123 Main Street, Anytown, CA 90210".data =
      wrapAddr "123 Main Street, Anytown, CA 90210".data := by
  refine ⟨by decide, by decide, by decide, by decide, by decide, ?_, by norm_num,
    by norm_num, by decide, by decide⟩
  show some (ratOfTenths 10) = some ((3 : ℚ)/10 + 4/10 + 3/10)
  rw [ratOfTenths_eq]
  norm_num

/-! ## Claim C8: matcher lemmas -/

/-- The matcher only consults its continuation at suffixes of the input: if
the continuation fails on every suffix, the whole match fails. -/
theorem mrun_none_of_k_none :
    ∀ (fuel : Nat) (re : RE) (prev : Option Char) (s : List Char) (g : Caps)
      (k : Option Char → List Char → Caps → Option (List Char × Caps)),
      (∀ p1 s1 g1, s1 <:+ s → k p1 s1 g1 = none) → mrun fuel re prev s g k = none := by
  intro fuel
  induction fuel with
  | zero => intro re prev s g k _; rfl
  | succ fu ih =>
    intro re prev s g k hk
    cases re with
    | eps => exact hk _ _ _ (List.suffix_refl s)
    | cls f =>
      cases s with
      | nil => rfl
      | cons c cs =>
        simp only [mrun]
        rcases hfc : f c with _ | _
        · simp
        · simp [hk (some c) cs g (List.suffix_cons c cs)]
    | cat a b =>
      simp only [mrun]
      refine ih a prev s g _ ?_
      intro p1 s1 g1 hs1
      refine ih b p1 s1 g1 _ ?_
      intro p2 s2 g2 hs2
      exact hk _ _ _ (hs2.trans hs1)
    | alt a b =>
      simp only [mrun]
      rw [ih a prev s g k hk, ih b prev s g k hk]
    | star a =>
      simp only [mrun]
      rw [ih a prev s g _ ?_]
      · exact hk _ _ _ (List.suffix_refl s)
      · intro p1 s1 g1 hs1
        by_cases hlen : s1.length < s.length
        · simp only [if_pos hlen]
          refine ih (.star a) p1 s1 g1 k ?_
          intro p2 s2 g2 hs2
          exact hk _ _ _ (hs2.trans hs1)
        · simp [hlen]
    | lstar a =>
      simp only [mrun]
      rw [hk _ _ _ (List.suffix_refl s)]
      rw [ih a prev s g _ ?_]
      intro p1 s1 g1 hs1
      by_cases hlen : s1.length < s.length
      · simp only [if_pos hlen]
        refine ih (.lstar a) p1 s1 g1 k ?_
        intro p2 s2 g2 hs2
        exact hk _ _ _ (hs2.trans hs1)
      · simp [hlen]
    | wb =>
      simp only [mrun]
      rw [hk _ _ _ (List.suffix_refl s)]
      simp
    | grp i a =>
      simp only [mrun]
      refine ih a prev s g _ ?_
      intro p1 s1 g1 hs1
      exact hk _ _ _ hs1

/-- Syntactic witnesses that a regex cannot match without consuming a digit. -/
inductive NeedsDigit : RE → Prop
  | cls (f : Char → Bool) (h : ∀ c, f c = true → c.isDigit = true) : NeedsDigit (.cls f)
  | catL {a b : RE} : NeedsDigit a → NeedsDigit (.cat a b)
  | catR {a b : RE} : NeedsDigit b → NeedsDigit (.cat a b)
  | alt {a b : RE} : NeedsDigit a → NeedsDigit b → NeedsDigit (.alt a b)
  | grp {i : Nat} {a : RE} : NeedsDigit a → NeedsDigit (.grp i a)

/-- A digit-requiring regex fails on digit-free input. -/
theorem mrun_none_of_needsDigit :
    ∀ (fuel : Nat) (re : RE), NeedsDigit re →
      ∀ (prev : Option Char) (s : List Char) (g : Caps)
        (k : Option Char → List Char → Caps → Option (List Char × Caps)),
        (∀ c ∈ s, c.isDigit = false) → mrun fuel re prev s g k = none := by
  intro fuel
  induction fuel with
  | zero => intro re _ prev s g k _; rfl
  | succ fu ih =>
    intro re hre prev s g k hnod
    cases hre with
    | cls f hf =>
      cases s with
      | nil => rfl
      | cons c cs =>
        simp only [mrun]
        rcases hfc : f c with _ | _
        · simp
        · exact absurd (hf c hfc) (by simp [hnod c (List.mem_cons_self c cs)])
    | catL ha =>
      simp only [mrun]
      exact ih _ ha _ _ _ _ hnod
    | catR hb =>
      simp only [mrun]
      refine mrun_none_of_k_none fu _ prev s g _ ?_
      intro p1 s1 g1 hs1
      exact ih _ hb _ _ _ _ (fun c hc => hnod c (hs1.subset hc))
    | alt ha hb =>
      simp only [mrun]
      rw [ih _ ha _ _ _ _ hnod, ih _ hb _ _ _ _ hnod]
    | grp ha =>
      simp only [mrun]
      exact ih _ ha _ _ _ _ hnod

theorem tryHere_none_of_needsDigit {p : RE} (hp : NeedsDigit p) (fuel : Nat)
    (prev : Option Char) (s : List Char) (hnod : ∀ c ∈ s, c.isDigit = false) :
    tryHere fuel p prev s = none :=
  mrun_none_of_needsDigit fuel p hp prev s [] _ hnod

theorem searchFromAux_none_of_needsDigit {p : RE} (hp : NeedsDigit p) (fuel : Nat) :
    ∀ (s : List Char) (prev : Option Char) (preAcc : List Char),
      (∀ c ∈ s, c.isDigit = false) → searchFromAux fuel p prev preAcc s = none := by
  intro s
  induction s with
  | nil =>
    intro prev preAcc hnod
    simp [searchFromAux, tryHere_none_of_needsDigit hp fuel prev [] hnod]
  | cons c cs ihs =>
    intro prev preAcc hnod
    simp only [searchFromAux, tryHere_none_of_needsDigit hp fuel prev (c :: cs) hnod]
    exact ihs (some c) (c :: preAcc) (fun d hd => hnod d (List.mem_cons_of_mem c hd))

theorem reSearchB_false_of_needsDigit {p : RE} (hp : NeedsDigit p) (s : List Char)
    (hnod : ∀ c ∈ s, c.isDigit = false) : reSearchB p s = false := by
  simp [reSearchB, reSearch, searchFromAux_none_of_needsDigit hp _ s none [] hnod]

theorem reFindIter_nil_of_needsDigit {p : RE} (hp : NeedsDigit p) (s : List Char)
    (hnod : ∀ c ∈ s, c.isDigit = false) : reFindIter p s = [] := by
  rw [reFindIter]
  cases h : s.length + 1 with
  | zero => rfl
  | succ fu =>
    simp [findIterAux, searchFromAux_none_of_needsDigit hp _ s none [] hnod]

theorem needsDigit_dC : NeedsDigit dC := .cls _ (fun _ h => h)

theorem needsDigit_range15 : NeedsDigit (reRange 1 5 dC) := .catL needsDigit_dC

theorem needsDigit_plus_dC : NeedsDigit (rePlus dC) := .catL needsDigit_dC

/-- Scanner pattern 1 requires a digit (its leading `\d{1,5}`). -/
theorem needsDigit_reP1 : NeedsDigit reP1 := .catR (.catL needsDigit_range15)

/-- Scanner pattern 2 requires a digit. -/
theorem needsDigit_reP2 : NeedsDigit reP2 := .catR (.catL needsDigit_range15)

/-- Scanner pattern 3 requires a digit (its `\d+` after the box keyword). -/
theorem needsDigit_reP3 : NeedsDigit reP3 := .catR (.catR (.catR (.catL needsDigit_plus_dC)))

/-- Scanner pattern 4 requires a digit. -/
theorem needsDigit_reP4 : NeedsDigit reP4 := .catR (.catL needsDigit_range15)

/-- The sentence heuristic's digit test `\b\d{1,5}\s` requires a digit. -/
theorem needsDigit_reSentNum : NeedsDigit reSentNum := .catR (.catL needsDigit_range15)

/-- Every character of every sentence piece comes from the split input. -/
theorem splitSentsAux_subset :
    ∀ (s acc : List Char) (b : Bool) (piece : List Char),
      piece ∈ splitSentsAux b acc s → ∀ c ∈ piece, c ∈ s ∨ c ∈ acc := by
  intro s
  induction s with
  | nil =>
    intro acc b piece hp c hc
    simp only [splitSentsAux, List.mem_singleton] at hp
    subst hp
    exact Or.inr (List.mem_reverse.mp hc)
  | cons d ds ihs =>
    intro acc b piece hp c hc
    simp only [splitSentsAux] at hp
    by_cases hsep : isSentSep d = true
    · rw [if_pos hsep] at hp
      rcases b with _ | _
      · rw [if_neg (by simp : ¬ (false = true))] at hp
        rcases List.mem_cons.mp hp with h1 | h1
        · subst h1
          exact Or.inr (List.mem_reverse.mp hc)
        · rcases ihs [] true piece h1 c hc with h2 | h2
          · exact Or.inl (List.mem_cons_of_mem d h2)
          · exact absurd h2 (List.not_mem_nil c)
      · simp only [if_pos rfl] at hp
        rcases ihs [] true piece hp c hc with h2 | h2
        · exact Or.inl (List.mem_cons_of_mem d h2)
        · exact absurd h2 (List.not_mem_nil c)
    · rw [if_neg hsep] at hp
      rcases ihs (d :: acc) false piece hp c hc with h2 | h2
      · exact Or.inl (List.mem_cons_of_mem d h2)
      · rcases List.mem_cons.mp h2 with h3 | h3
        · subst h3
          exact Or.inl (List.mem_cons_self c ds)
        · exact Or.inr h3

theorem splitSentences_subset {l piece : List Char} (hp : piece ∈ splitSentences l) :
    piece ⊆ l := by
  intro c hc
  rcases splitSentsAux_subset l [] false piece hp c hc with h | h
  · exact h
  · exact absurd h (List.not_mem_nil c)

theorem pyStrip_subset (l : List Char) : pyStrip l ⊆ l := by
  intro c hc
  simp only [pyStrip, List.mem_reverse] at hc
  have h1 := (List.dropWhile_sublist (l := (l.dropWhile pyIsSpace).reverse)
    (p := pyIsSpace)).subset hc
  rw [List.mem_reverse] at h1
  exact (List.dropWhile_sublist (l := l) (p := pyIsSpace)).subset h1

/-- C8 (confirmed): on input without digit characters, the candidate scanner
returns the empty sequence — every pattern tier requires a digit and so does
the sentence heuristic's digit test. -/
theorem C8_no_digit_no_candidates (text : List Char)
    (h : ∀ c ∈ text, c.isDigit = false) :
    find_address_candidates text = [] := by
  have hpat : patternCandidates text = [] := by
    unfold patternCandidates address_patterns
    simp only [List.map_cons, List.map_nil,
      reFindIter_nil_of_needsDigit needsDigit_reP1 text h,
      reFindIter_nil_of_needsDigit needsDigit_reP2 text h,
      reFindIter_nil_of_needsDigit needsDigit_reP3 text h,
      reFindIter_nil_of_needsDigit needsDigit_reP4 text h,
      List.filterMap_nil]
    rfl
  have hsent : sentenceCandidates text = [] := by
    unfold sentenceCandidates
    rw [List.filterMap_eq_nil_iff]
    intro s0 hs0
    have hsub : ∀ c ∈ pyStrip s0, c.isDigit = false :=
      fun c hc => h c (splitSentences_subset hs0 (pyStrip_subset s0 hc))
    have hq := reSearchB_false_of_needsDigit needsDigit_reSentNum _ hsub
    simp [hq]
  unfold find_address_candidates pooledCandidates
  rw [hpat, hsent]
  rfl

/-- C8 witness: a digit-free text with street keywords yields no candidates. -/
theorem C8_no_digit_no_candidates_wit :
    (∀ c ∈ "no digits here on any Street or Avenue".data, c.isDigit = false) ∧
    find_address_candidates "no digits here on any Street or Avenue".data = [] :=
  ⟨by decide, C8_no_digit_no_candidates _ (by decide)⟩

/-! ## Claim C4 -/

theorem dedupCandidates_sublist :
    ∀ (l seen : List (List Char)), (dedupCandidates l seen).Sublist l := by
  intro l
  induction l with
  | nil => intro seen; simp [dedupCandidates]
  | cons c rest ih =>
    intro seen
    rw [dedupCandidates]
    split
    · exact (ih _).cons₂ c
    · exact (ih seen).cons c

theorem dedupCandidates_not_seen_pairwise :
    ∀ (l seen : List (List Char)),
      (∀ c ∈ dedupCandidates l seen, normalizeCand c ∉ seen) ∧
      (dedupCandidates l seen).Pairwise (fun a b => normalizeCand a ≠ normalizeCand b) := by
  intro l
  induction l with
  | nil => intro seen; simp [dedupCandidates]
  | cons c rest ih =>
    intro seen
    rw [dedupCandidates]
    split
    case isTrue hcond =>
      rw [Bool.and_eq_true] at hcond
      obtain ⟨h1, _⟩ := hcond
      have hns : normalizeCand c ∉ seen := by
        simp only [Bool.not_eq_eq_eq_not, Bool.not_true] at h1
        intro hmem
        have h1x : List.elem (normalizeCand c) seen = false := h1
        rw [List.elem_eq_true_of_mem hmem] at h1x
        exact absurd h1x (by decide)
      constructor
      · intro d hd
        rcases List.mem_cons.mp hd with rfl | hd2
        · exact hns
        · intro hmem
          exact ((ih (normalizeCand c :: seen)).1 d hd2) (List.mem_cons_of_mem _ hmem)
      · refine List.Pairwise.cons ?_ (ih _).2
        intro d hd heq
        have := (ih (normalizeCand c :: seen)).1 d hd
        exact this (heq ▸ List.mem_cons_self _ _)
    case isFalse => exact ih seen

theorem dedupCandidates_length :
    ∀ (l seen : List (List Char)), ∀ c ∈ dedupCandidates l seen, 15 < c.length := by
  intro l
  induction l with
  | nil => intro seen c hc; simp [dedupCandidates] at hc
  | cons d rest ih =>
    intro seen c hc
    rw [dedupCandidates] at hc
    revert hc
    split
    case isTrue hcond =>
      intro hc
      rw [Bool.and_eq_true] at hcond
      rcases List.mem_cons.mp hc with rfl | hc2
      · exact of_decide_eq_true hcond.2
      · exact ih _ c hc2
    case isFalse =>
      intro hc
      exact ih seen c hc

/-- C4 (amended): the scanner's output is a subsequence of the pooled
candidate list (pattern tiers in sequence, then the sentence heuristic),
pairwise distinct under the normalized form (lower-cased, whitespace
collapsed), and every returned candidate is longer than 15 characters.  The
output order is first-seen order of that pooled scan, which need not be
position order in the text. -/
theorem C4_scanner_contract (text : List Char) :
    (find_address_candidates text).Sublist (pooledCandidates text) ∧
    (find_address_candidates text).Pairwise
      (fun a b => normalizeCand a ≠ normalizeCand b) ∧
    (∀ c ∈ find_address_candidates text, 15 < c.length) :=
  ⟨dedupCandidates_sublist _ [], (dedupCandidates_not_seen_pairwise _ []).2,
   dedupCandidates_length _ []⟩

/-- First occurrence position (Python `str.find`), 0 when absent. -/
def firstPos (text pat : List Char) : Nat := (pyFindIdx text pat).getD 0

/-- The ordering property asserted by the claim: candidates listed by
first-seen position in the text. -/
def orderedByFirstPos (text : List Char) (l : List (List Char)) : Prop :=
  l.Pairwise (fun a b => firstPos text a ≤ firstPos text b)

/-- C4 (as stated, counterexample): on
"9000 Oakwood Avenue ok! 1 Elm St, Ab, CA 90210" the scanner returns the
pattern-tier match at position 24 before the pattern-4 and sentence matches at
position 0, so the output is not ordered by first-seen position in the text. -/
theorem C4_scanner_order_cex :
    find_address_candidates "9000 Oakwood Avenue ok! 1 Elm St, Ab, CA 90210".data =
      ["1 Elm St, Ab, CA 90210".data, "9000 Oakwood Avenue".data,
       "9000 Oakwood Avenue ok".data] ∧
    firstPos "9000 Oakwood Avenue ok! 1 Elm St, Ab, CA 90210".data
      "1 Elm St, Ab, CA 90210".data = 24 ∧
    firstPos "9000 Oakwood Avenue ok! 1 Elm St, Ab, CA 90210".data
      "9000 Oakwood Avenue".data = 0 ∧
    ¬ orderedByFirstPos "9000 Oakwood Avenue ok! 1 Elm St, Ab, CA 90210".data
      (find_address_candidates "9000 Oakwood Avenue ok! 1 Elm St, Ab, CA 90210".data) := by
  refine ⟨by decide, by decide, by decide, ?_⟩
  intro hord
  rw [orderedByFirstPos] at hord
  have := hord
  revert this
  decide

/-! ## Claims C6/C7: scan lemmas -/

theorem dropLit_le : ∀ (lit s r : List Char), dropLit lit s = some r → r.length ≤ s.length := by
  intro lit
  induction lit with
  | nil =>
    intro s r h
    simp only [dropLit, Option.some.injEq] at h
    subst h
    exact Nat.le_refl _
  | cons c cs ih =>
    intro s r h
    cases s with
    | nil => exact absurd h (by simp [dropLit])
    | cons d ds =>
      rw [dropLit] at h
      by_cases hdc : d = c
      · rw [if_pos hdc] at h
        exact Nat.le_succ_of_le (ih ds r h)
      · rw [if_neg hdc] at h
        exact absurd h (by simp)

theorem dropLit_lt {lit : List Char} (hne : lit ≠ []) :
    ∀ (s r : List Char), dropLit lit s = some r → r.length < s.length := by
  cases lit with
  | nil => exact absurd rfl hne
  | cons c cs =>
    intro s r h
    cases s with
    | nil => exact absurd h (by simp [dropLit])
    | cons d ds =>
      rw [dropLit] at h
      by_cases hdc : d = c
      · rw [if_pos hdc] at h
        exact Nat.lt_succ_of_le (dropLit_le cs ds r h)
      · rw [if_neg hdc] at h
        exact absurd h (by simp)

theorem scanKind_lt (s : List Char) (pr : List Char × List Char)
    (h : scanKind s = some pr) : pr.2.length < s.length := by
  rw [scanKind] at h
  rcases h1 : dropLit "GPE".data s with _ | r1
  · rw [h1] at h
    rcases h2 : dropLit "LOC".data s with _ | r2
    · rw [h2] at h
      rcases h3 : dropLit "address".data s with _ | r3
      · rw [h3] at h; exact absurd h (by simp)
      · rw [h3] at h
        injection h with h'
        subst h'
        exact dropLit_lt (by decide) s r3 h3
    · rw [h2] at h
      injection h with h'
      subst h'
      exact dropLit_lt (by decide) s r2 h2
  · rw [h1] at h
    injection h with h'
    subst h'
    exact dropLit_lt (by decide) s r1 h1

theorem spaces1_lt (s : List Char) (r : List Char) (h : spaces1 s = some r) :
    r.length < s.length := by
  cases s with
  | nil => exact absurd h (by simp [spaces1])
  | cons c cs =>
    rw [spaces1] at h
    by_cases hc : pyIsSpace c = true
    · rw [if_pos hc] at h
      injection h with h'
      subst h'
      exact Nat.lt_succ_of_le (List.dropWhile_sublist (p := pyIsSpace)).length_le
    · rw [if_neg hc] at h
      exact absurd h (by simp)

theorem scanValCore_lt : ∀ (s : List Char) (pr : List Char × List Char),
    scanValCore s = some pr → pr.2.length < s.length := by
  intro s
  induction s with
  | nil => intro pr h; exact absurd h (by simp [scanValCore])
  | cons c cs ih =>
    intro pr h
    rw [scanValCore] at h
    by_cases hc : c = '"'
    · rw [if_pos hc] at h
      injection h with h'
      subst h'
      exact Nat.lt_succ_of_le (Nat.le_refl _)
    · rw [if_neg hc] at h
      rcases h2 : scanValCore cs with _ | pr2
      · rw [h2] at h; exact absurd h (by simp)
      · rw [h2] at h
        injection h with h'
        subst h'
        exact Nat.lt_succ_of_le (Nat.le_of_lt (ih pr2 h2))

theorem scanVal_lt (s : List Char) (pr : List Char × List Char)
    (h : scanVal s = some pr) : pr.2.length < s.length := by
  cases s with
  | nil => exact absurd h (by simp [scanVal])
  | cons c cs =>
    rw [scanVal] at h
    by_cases hc : c = '"'
    · rw [if_pos hc] at h; exact absurd h (by simp)
    · rw [if_neg hc] at h
      rcases h2 : scanValCore cs with _ | pr2
      · rw [h2] at h; exact absurd h (by simp)
      · rw [h2] at h
        injection h with h'
        subst h'
        exact Nat.lt_succ_of_le (Nat.le_of_lt (scanValCore_lt cs pr2 h2))

theorem scanInnerCore_le : ∀ (s : List Char) (pr : List Char × List Char),
    scanInnerCore s = some pr → pr.2.length ≤ s.length := by
  intro s
  induction s with
  | nil => intro pr h; exact absurd h (by simp [scanInnerCore])
  | cons c cs ih =>
    intro pr h
    rw [scanInnerCore] at h
    by_cases hc : c = '<'
    · rw [if_pos hc] at h
      injection h with h'
      subst h'
      exact Nat.le_refl _
    · rw [if_neg hc] at h
      rcases h2 : scanInnerCore cs with _ | pr2
      · rw [h2] at h; exact absurd h (by simp)
      · rw [h2] at h
        injection h with h'
        subst h'
        exact Nat.le_succ_of_le (ih pr2 h2)

theorem scanInner_lt (s : List Char) (pr : List Char × List Char)
    (h : scanInner s = some pr) : pr.2.length < s.length := by
  cases s with
  | nil => exact absurd h (by simp [scanInner])
  | cons c cs =>
    rw [scanInner] at h
    by_cases hc : c = '<'
    · rw [if_pos hc] at h; exact absurd h (by simp)
    · rw [if_neg hc] at h
      rcases h2 : scanInnerCore cs with _ | pr2
      · rw [h2] at h; exact absurd h (by simp)
      · rw [h2] at h
        injection h with h'
        subst h'
        exact Nat.lt_succ_of_le (scanInnerCore_le cs pr2 h2)

theorem scanAttr_lt (name : String) (s : List Char) (pr : List Char × List Char)
    (h : scanAttr name s = some pr) : pr.2.length < s.length := by
  rw [scanAttr] at h
  obtain ⟨s1, h1, h'⟩ := Option.bind_eq_some.mp h
  obtain ⟨s2, h2, h3⟩ := Option.bind_eq_some.mp h'
  calc pr.2.length < s1.length := scanVal_lt s2 pr h3 |>.trans_le (dropLit_le _ s1 s2 h2)
    _ < s.length := spaces1_lt s s1 h1

theorem scanClose_lt (k : List Char) (s : List Char) (pr : List Char × List Char)
    (h : scanClose k s = some pr) : pr.2.length < s.length := by
  rw [scanClose] at h
  obtain ⟨ts, h1, h'⟩ := Option.bind_eq_some.mp h
  obtain ⟨s1, h2, h3⟩ := Option.bind_eq_some.mp h'
  injection h3 with h4
  subst h4
  exact Nat.lt_of_le_of_lt (dropLit_le _ ts.2 s1 h2) (scanInner_lt s ts h1)

theorem tryCur_lt (s : List Char) (pr : List Char × List Char)
    (h : tryCur s = some pr) : pr.2.length < s.length := by
  rw [tryCur] at h
  obtain ⟨s1, h1, h'⟩ := Option.bind_eq_some.mp h
  obtain ⟨ks, h2, h'⟩ := Option.bind_eq_some.mp h'
  obtain ⟨lats, h3, h'⟩ := Option.bind_eq_some.mp h'
  obtain ⟨lons, h4, h'⟩ := Option.bind_eq_some.mp h'
  obtain ⟨zooms, h5, h'⟩ := Option.bind_eq_some.mp h'
  obtain ⟨s2, h6, h'⟩ := Option.bind_eq_some.mp h'
  obtain ⟨txts, h7, h8⟩ := Option.bind_eq_some.mp h'
  injection h8 with h9
  subst h9
  show txts.2.length < s.length
  have c7 := scanClose_lt ks.1 s2 txts h7
  have c6 := dropLit_le _ zooms.2 s2 h6
  have c5 := scanAttr_lt _ lons.2 zooms h5
  have c4 := scanAttr_lt _ lats.2 lons h4
  have c3 := scanAttr_lt _ ks.2 lats h3
  have c2 := scanKind_lt s1 ks h2
  have c1 := dropLit_lt (by decide) s s1 h1
  omega

theorem tryLeg_lt (s : List Char) (pr : List Char × List Char)
    (h : tryLeg s = some pr) : pr.2.length < s.length := by
  rw [tryLeg] at h
  obtain ⟨s1, h1, h'⟩ := Option.bind_eq_some.mp h
  obtain ⟨ks, h2, h'⟩ := Option.bind_eq_some.mp h'
  obtain ⟨lats, h3, h'⟩ := Option.bind_eq_some.mp h'
  obtain ⟨lons, h4, h'⟩ := Option.bind_eq_some.mp h'
  obtain ⟨s2, h6, h'⟩ := Option.bind_eq_some.mp h'
  obtain ⟨txts, h7, h8⟩ := Option.bind_eq_some.mp h'
  injection h8 with h9
  subst h9
  show txts.2.length < s.length
  have c7 := scanClose_lt ks.1 s2 txts h7
  have c6 := dropLit_le _ lons.2 s2 h6
  have c4 := scanAttr_lt _ lats.2 lons h4
  have c3 := scanAttr_lt _ ks.2 lats h3
  have c2 := scanKind_lt s1 ks h2
  have c1 := dropLit_lt (by decide) s s1 h1
  omega

theorem trySimple_lt (s : List Char) (pr : List Char × List Char)
    (h : trySimple s = some pr) : pr.2.length < s.length := by
  rw [trySimple] at h
  obtain ⟨s1, h1, h'⟩ := Option.bind_eq_some.mp h
  obtain ⟨ks, h2, h'⟩ := Option.bind_eq_some.mp h'
  obtain ⟨s2, h3, h4⟩ := Option.bind_eq_some.mp h'
  have c4 := scanClose_lt ks.1 s2 pr h4
  have c3 := dropLit_le _ ks.2 s2 h3
  have c2 := scanKind_lt s1 ks h2
  have c1 := dropLit_lt (by decide) s s1 h1
  omega

theorem tryAddrOnly_lt (s : List Char) (pr : List Char × List Char)
    (h : tryAddrOnly s = some pr) : pr.2.length < s.length := by
  rw [tryAddrOnly] at h
  obtain ⟨s1, h1, h'⟩ := Option.bind_eq_some.mp h
  obtain ⟨ts, h2, h'⟩ := Option.bind_eq_some.mp h'
  obtain ⟨s2, h3, h4⟩ := Option.bind_eq_some.mp h'
  injection h4 with h5
  subst h5
  show s2.length < s.length
  have c3 := dropLit_le _ ts.2 s2 h3
  have c2 := scanInner_lt s1 ts h2
  have c1 := dropLit_lt (by decide) s s1 h1
  omega

/-! ### Generic `subAll` rewriting -/

/-- Shorthand for the consumption property of a match attempt. -/
def Consumes (t : List Char → Option (List Char × List Char)) : Prop :=
  ∀ s pr, t s = some pr → pr.2.length < s.length

theorem applySub_fuel {t : List Char → Option (List Char × List Char)} (ht : Consumes t) :
    ∀ (f1 f2 : Nat) (s : List Char), s.length ≤ f1 → s.length ≤ f2 →
      applySub t f1 s = applySub t f2 s := by
  intro f1
  induction f1 with
  | zero =>
    intro f2 s h1 _
    have : s = [] := List.eq_nil_of_length_eq_zero (Nat.le_zero.mp h1)
    subst this
    cases f2 <;> rfl
  | succ f1' ih =>
    intro f2 s h1 h2
    cases s with
    | nil => cases f2 <;> rfl
    | cons c cs =>
      cases f2 with
      | zero => exact absurd h2 (by simp)
      | succ f2' =>
        rcases hm : t (c :: cs) with _ | ⟨r, rest⟩
        · simp only [applySub, hm]
          rw [ih f2' cs (Nat.le_of_succ_le_succ h1) (Nat.le_of_succ_le_succ h2)]
        · simp only [applySub, hm]
          have hlt := ht _ _ hm
          have hlen : rest.length ≤ f1' := by
            simp only [List.length_cons] at hlt h1
            omega
          have hlen2 : rest.length ≤ f2' := by
            simp only [List.length_cons] at hlt h2
            omega
          rw [ih f2' rest hlen hlen2]

theorem subAll_nil (t : List Char → Option (List Char × List Char)) : subAll t [] = [] := rfl

theorem subAll_cons_fail {t : List Char → Option (List Char × List Char)} {c : Char}
    {cs : List Char} (h : t (c :: cs) = none) : subAll t (c :: cs) = c :: subAll t cs := by
  simp only [subAll, List.length_cons, applySub, h]

theorem subAll_cons_match {t : List Char → Option (List Char × List Char)} (ht : Consumes t)
    {c : Char} {cs : List Char} {r rest : List Char} (h : t (c :: cs) = some (r, rest)) :
    subAll t (c :: cs) = r ++ subAll t rest := by
  simp only [subAll, List.length_cons, applySub, h]
  congr 1
  have hlt := ht _ _ h
  simp only [List.length_cons] at hlt
  exact applySub_fuel ht cs.length rest.length rest (by omega) (Nat.le_refl _)

/-- Characters that can never start a match (every pattern starts with `<`). -/
def NoLt (l : List Char) : Prop := ∀ c ∈ l, c ≠ '<'

instance instDecidableNoLt (l : List Char) : Decidable (NoLt l) :=
  inferInstanceAs (Decidable (∀ c ∈ l, c ≠ '<'))

theorem subAll_append_noLt {t : List Char → Option (List Char × List Char)}
    (hhead : ∀ (c : Char) (cs : List Char), c ≠ '<' → t (c :: cs) = none) :
    ∀ {a : List Char} (r : List Char), NoLt a → subAll t (a ++ r) = a ++ subAll t r := by
  intro a
  induction a with
  | nil => intro r _; rfl
  | cons c cs ih =>
    intro r hnl
    have hc : c ≠ '<' := hnl c (List.mem_cons_self c cs)
    rw [List.cons_append, subAll_cons_fail (hhead c _ hc),
      ih r (fun d hd => hnl d (List.mem_cons_of_mem c hd))]
    simp

theorem subAll_noLt {t : List Char → Option (List Char × List Char)}
    (hhead : ∀ (c : Char) (cs : List Char), c ≠ '<' → t (c :: cs) = none)
    {s : List Char} (hnl : NoLt s) : subAll t s = s := by
  have h2 := subAll_append_noLt hhead (a := s) [] hnl
  rw [List.append_nil] at h2
  rw [h2, subAll_nil, List.append_nil]

/-! ### Exact parses and guaranteed failures of the tag patterns -/

theorem dropLit_self_append : ∀ (lit r : List Char), dropLit lit (lit ++ r) = some r := by
  intro lit
  induction lit with
  | nil => intro r; rfl
  | cons c cs ih => intro r; simp [dropLit, ih r]

theorem tryCur_not_lt {c : Char} (h : c ≠ '<') (cs : List Char) : tryCur (c :: cs) = none := by
  have h1 : dropLit "<".data (c :: cs) = none := by
    show dropLit ['<'] (c :: cs) = none
    simp [dropLit, h]
  simp [tryCur, h1]

theorem tryLeg_not_lt {c : Char} (h : c ≠ '<') (cs : List Char) : tryLeg (c :: cs) = none := by
  have h1 : dropLit "<".data (c :: cs) = none := by
    show dropLit ['<'] (c :: cs) = none
    simp [dropLit, h]
  simp [tryLeg, h1]

theorem trySimple_not_lt {c : Char} (h : c ≠ '<') (cs : List Char) :
    trySimple (c :: cs) = none := by
  have h1 : dropLit "<".data (c :: cs) = none := by
    show dropLit ['<'] (c :: cs) = none
    simp [dropLit, h]
  simp [trySimple, h1]

theorem tryAddrOnly_not_lt {c : Char} (h : c ≠ '<') (cs : List Char) :
    tryAddrOnly (c :: cs) = none := by
  have h1 : dropLit "<address>".data (c :: cs) = none := by
    show dropLit ('<' :: "address>".data) (c :: cs) = none
    simp [dropLit, h]
  simp [tryAddrOnly, h1]

theorem tryCur_slash (r : List Char) : tryCur ('<' :: '/' :: r) = none := rfl

theorem tryLeg_slash (r : List Char) : tryLeg ('<' :: '/' :: r) = none := rfl

theorem trySimple_slash (r : List Char) : trySimple ('<' :: '/' :: r) = none := rfl

theorem tryAddrOnly_slash (r : List Char) : tryAddrOnly ('<' :: '/' :: r) = none := rfl

theorem tryLeg_anchor (r : List Char) : tryLeg ('<' :: 'a' :: ' ' :: r) = none := rfl

theorem trySimple_anchor (r : List Char) : trySimple ('<' :: 'a' :: ' ' :: r) = none := rfl

theorem tryAddrOnly_anchor (r : List Char) : tryAddrOnly ('<' :: 'a' :: ' ' :: r) = none := rfl

theorem tryCur_addrTag (r : List Char) :
    tryCur ('<' :: 'a' :: 'd' :: 'd' :: 'r' :: 'e' :: 's' :: 's' :: '>' :: r) = none := rfl

theorem tryLeg_addrTag (r : List Char) :
    tryLeg ('<' :: 'a' :: 'd' :: 'd' :: 'r' :: 'e' :: 's' :: 's' :: '>' :: r) = none := rfl

theorem scanValCore_spec : ∀ (v r : List Char), '"' ∉ v →
    scanValCore (v ++ '"' :: r) = some (v, r) := by
  intro v
  induction v with
  | nil => intro r _; simp [scanValCore]
  | cons c cs ih =>
    intro r hnq
    have hc : ¬ (c = '"') := fun hh => hnq (hh ▸ List.mem_cons_self c cs)
    rw [List.cons_append, scanValCore, if_neg hc, ih r (fun hm => hnq (List.mem_cons_of_mem c hm))]

theorem scanVal_spec (v r : List Char) (hne : v ≠ []) (hnq : '"' ∉ v) :
    scanVal (v ++ '"' :: r) = some (v, r) := by
  cases v with
  | nil => exact absurd rfl hne
  | cons c cs =>
    have hc : ¬ (c = '"') := fun hh => hnq (hh ▸ List.mem_cons_self c cs)
    rw [List.cons_append, scanVal, if_neg hc,
      scanValCore_spec cs r (fun hm => hnq (List.mem_cons_of_mem c hm))]

theorem scanInnerCore_spec : ∀ (v r : List Char), '<' ∉ v →
    scanInnerCore (v ++ '<' :: r) = some (v, '<' :: r) := by
  intro v
  induction v with
  | nil => intro r _; simp [scanInnerCore]
  | cons c cs ih =>
    intro r hnl
    have hc : ¬ (c = '<') := fun hh => hnl (hh ▸ List.mem_cons_self c cs)
    rw [List.cons_append, scanInnerCore, if_neg hc, ih r (fun hm => hnl (List.mem_cons_of_mem c hm))]

theorem scanInner_spec (v r : List Char) (hne : v ≠ []) (hnl : '<' ∉ v) :
    scanInner (v ++ '<' :: r) = some (v, '<' :: r) := by
  cases v with
  | nil => exact absurd rfl hne
  | cons c cs =>
    have hc : ¬ (c = '<') := fun hh => hnl (hh ▸ List.mem_cons_self c cs)
    rw [List.cons_append, scanInner, if_neg hc,
      scanInnerCore_spec cs r (fun hm => hnl (List.mem_cons_of_mem c hm))]

/-- The three entity kinds. -/
def tagKinds : List (List Char) := ["GPE".data, "LOC".data, "address".data]

theorem scanKind_spec {k : List Char} (hk : k ∈ tagKinds) (r : List Char) :
    scanKind (k ++ r) = some (k, r) := by
  simp only [tagKinds, List.mem_cons, List.not_mem_nil, or_false] at hk
  rcases hk with rfl | rfl | rfl
  · show scanKind ("GPE".data ++ r) = _
    rw [scanKind, dropLit_self_append]
  · show scanKind ("LOC".data ++ r) = _
    rw [scanKind]
    have h1 : dropLit "GPE".data ("LOC".data ++ r) = none := by simp [dropLit]
    rw [h1, dropLit_self_append]
  · show scanKind ("address".data ++ r) = _
    rw [scanKind]
    have h1 : dropLit "GPE".data ("address".data ++ r) = none := by simp [dropLit]
    have h2 : dropLit "LOC".data ("address".data ++ r) = none := by simp [dropLit]
    rw [h1, h2, dropLit_self_append]

/-- A current-schema tag `<K lat="LAT" lon="LON" zoom_level="Z">TXT</K>`. -/
def mkCurTag (k lat lon zoom txt : List Char) : List Char :=
  "<".data ++ k ++ " ".data ++ "lat=\"".data ++ lat ++ "\"".data ++ " ".data ++
  "lon=\"".data ++ lon ++ "\"".data ++ " ".data ++ "zoom_level=\"".data ++ zoom ++
  "\"".data ++ ">".data ++ txt ++ "</".data ++ k ++ ">".data

/-- A legacy-schema tag `<K lat="LAT" lon="LON">TXT</K>`. -/
def mkLegTag (k lat lon txt : List Char) : List Char :=
  "<".data ++ k ++ " ".data ++ "lat=\"".data ++ lat ++ "\"".data ++ " ".data ++
  "lon=\"".data ++ lon ++ "\"".data ++ ">".data ++ txt ++ "</".data ++ k ++ ">".data

theorem scanAttr_lat (v X : List Char) (hne : v ≠ []) (hnq : '"' ∉ v) :
    scanAttr "lat" (" ".data ++ ("lat=\"".data ++ (v ++ ("\"".data ++ X)))) = some (v, X) := by
  have h1 : spaces1 (" ".data ++ ("lat=\"".data ++ (v ++ ("\"".data ++ X)))) =
      some ("lat=\"".data ++ (v ++ ("\"".data ++ X))) := by
    show spaces1 (' ' :: ('l' :: ("at=\"".data ++ (v ++ ("\"".data ++ X))))) = _
    rw [spaces1, if_pos (by decide), List.dropWhile_cons_of_neg (by decide)]
    rfl
  have h2 : ("lat" ++ "=\"").data = "lat=\"".data := rfl
  have h3 : v ++ ("\"".data ++ X) = v ++ '"' :: X := rfl
  rw [scanAttr, h1, Option.some_bind, h2, dropLit_self_append, Option.some_bind, h3,
    scanVal_spec v X hne hnq]

theorem scanAttr_lon (v X : List Char) (hne : v ≠ []) (hnq : '"' ∉ v) :
    scanAttr "lon" (" ".data ++ ("lon=\"".data ++ (v ++ ("\"".data ++ X)))) = some (v, X) := by
  have h1 : spaces1 (" ".data ++ ("lon=\"".data ++ (v ++ ("\"".data ++ X)))) =
      some ("lon=\"".data ++ (v ++ ("\"".data ++ X))) := by
    show spaces1 (' ' :: ('l' :: ("on=\"".data ++ (v ++ ("\"".data ++ X))))) = _
    rw [spaces1, if_pos (by decide), List.dropWhile_cons_of_neg (by decide)]
    rfl
  have h2 : ("lon" ++ "=\"").data = "lon=\"".data := rfl
  have h3 : v ++ ("\"".data ++ X) = v ++ '"' :: X := rfl
  rw [scanAttr, h1, Option.some_bind, h2, dropLit_self_append, Option.some_bind, h3,
    scanVal_spec v X hne hnq]

theorem scanAttr_zoom (v X : List Char) (hne : v ≠ []) (hnq : '"' ∉ v) :
    scanAttr "zoom_level" (" ".data ++ ("zoom_level=\"".data ++ (v ++ ("\"".data ++ X)))) =
      some (v, X) := by
  have h1 : spaces1 (" ".data ++ ("zoom_level=\"".data ++ (v ++ ("\"".data ++ X)))) =
      some ("zoom_level=\"".data ++ (v ++ ("\"".data ++ X))) := by
    show spaces1 (' ' :: ('z' :: ("oom_level=\"".data ++ (v ++ ("\"".data ++ X))))) = _
    rw [spaces1, if_pos (by decide), List.dropWhile_cons_of_neg (by decide)]
    rfl
  have h2 : ("zoom_level" ++ "=\"").data = "zoom_level=\"".data := rfl
  have h3 : v ++ ("\"".data ++ X) = v ++ '"' :: X := rfl
  rw [scanAttr, h1, Option.some_bind, h2, dropLit_self_append, Option.some_bind, h3,
    scanVal_spec v X hne hnq]

theorem scanClose_spec (k txt X : List Char) (hne : txt ≠ []) (hnl : '<' ∉ txt) :
    scanClose k (txt ++ ("</".data ++ (k ++ (">".data ++ X)))) = some (txt, X) := by
  have h1 : txt ++ ("</".data ++ (k ++ (">".data ++ X))) =
      txt ++ '<' :: ('/' :: (k ++ ('>' :: X))) := rfl
  have h2 : scanInner (txt ++ '<' :: ('/' :: (k ++ ('>' :: X)))) =
      some (txt, '<' :: ('/' :: (k ++ ('>' :: X)))) := scanInner_spec txt _ hne hnl
  have h3 : '<' :: ('/' :: (k ++ ('>' :: X))) = ("</".data ++ k ++ ">".data) ++ X := by
    simp [List.append_assoc]
  rw [scanClose, h1, h2, Option.some_bind, h3, dropLit_self_append]
  rfl

theorem tryCur_tag {k lat lon zoom txt : List Char} (hk : k ∈ tagKinds)
    (hlat1 : lat ≠ []) (hlat2 : '"' ∉ lat) (hlon1 : lon ≠ []) (hlon2 : '"' ∉ lon)
    (hzoom1 : zoom ≠ []) (hzoom2 : '"' ∉ zoom) (htxt1 : txt ≠ []) (htxt2 : '<' ∉ txt)
    (r : List Char) :
    tryCur (mkCurTag k lat lon zoom txt ++ r) = some (currentRepl lat lon zoom txt, r) := by
  have e0 : mkCurTag k lat lon zoom txt ++ r =
      "<".data ++ (k ++ (" ".data ++ ("lat=\"".data ++ (lat ++ ("\"".data ++ (" ".data ++
        ("lon=\"".data ++ (lon ++ ("\"".data ++ (" ".data ++ ("zoom_level=\"".data ++
        (zoom ++ ("\"".data ++ (">".data ++ (txt ++ ("</".data ++ (k ++ (">".data ++
        r)))))))))))))))))) := by
    simp [mkCurTag, List.append_assoc]
  rw [tryCur, e0, dropLit_self_append, Option.some_bind, scanKind_spec hk, Option.some_bind]
  rw [show (k, (" ".data ++ ("lat=\"".data ++ (lat ++ ("\"".data ++ (" ".data ++
      ("lon=\"".data ++ (lon ++ ("\"".data ++ (" ".data ++ ("zoom_level=\"".data ++
      (zoom ++ ("\"".data ++ (">".data ++ (txt ++ ("</".data ++ (k ++ (">".data ++
      r)))))))))))))))))).2 = (" ".data ++ ("lat=\"".data ++ (lat ++ ("\"".data ++
      (" ".data ++ ("lon=\"".data ++ (lon ++ ("\"".data ++ (" ".data ++
      ("zoom_level=\"".data ++ (zoom ++ ("\"".data ++ (">".data ++ (txt ++ ("</".data ++
      (k ++ (">".data ++ r))))))))))))))))) from rfl]
  rw [scanAttr_lat lat _ hlat1 hlat2, Option.some_bind]
  rw [scanAttr_lon lon _ hlon1 hlon2, Option.some_bind]
  rw [scanAttr_zoom zoom _ hzoom1 hzoom2, Option.some_bind]
  rw [show (">".data ++ (txt ++ ("</".data ++ (k ++ (">".data ++ r))))) =
      ">".data ++ (txt ++ ("</".data ++ (k ++ (">".data ++ r)))) from rfl,
    dropLit_self_append, Option.some_bind]
  rw [scanClose_spec k txt r htxt1 htxt2, Option.some_bind]

theorem tryLeg_tag {k lat lon txt : List Char} (hk : k ∈ tagKinds)
    (hlat1 : lat ≠ []) (hlat2 : '"' ∉ lat) (hlon1 : lon ≠ []) (hlon2 : '"' ∉ lon)
    (htxt1 : txt ≠ []) (htxt2 : '<' ∉ txt) (r : List Char) :
    tryLeg (mkLegTag k lat lon txt ++ r) = some (legacyRepl lat lon txt, r) := by
  have e0 : mkLegTag k lat lon txt ++ r =
      "<".data ++ (k ++ (" ".data ++ ("lat=\"".data ++ (lat ++ ("\"".data ++ (" ".data ++
        ("lon=\"".data ++ (lon ++ ("\"".data ++ (">".data ++ (txt ++ ("</".data ++
        (k ++ (">".data ++ r)))))))))))))) := by
    simp [mkLegTag, List.append_assoc]
  rw [tryLeg, e0, dropLit_self_append, Option.some_bind, scanKind_spec hk, Option.some_bind]
  rw [show (k, (" ".data ++ ("lat=\"".data ++ (lat ++ ("\"".data ++ (" ".data ++
      ("lon=\"".data ++ (lon ++ ("\"".data ++ (">".data ++ (txt ++ ("</".data ++
      (k ++ (">".data ++ r)))))))))))))).2 = (" ".data ++ ("lat=\"".data ++ (lat ++
      ("\"".data ++ (" ".data ++ ("lon=\"".data ++ (lon ++ ("\"".data ++ (">".data ++
      (txt ++ ("</".data ++ (k ++ (">".data ++ r))))))))))))) from rfl]
  rw [scanAttr_lat lat _ hlat1 hlat2, Option.some_bind]
  rw [scanAttr_lon lon _ hlon1 hlon2, Option.some_bind]
  rw [dropLit_self_append, Option.some_bind]
  rw [scanClose_spec k txt r htxt1 htxt2, Option.some_bind]

/-- The current-schema pass does not fire on a legacy tag: after the `lon`
attribute it demands whitespace and `zoom_level="`, but finds `>`. -/
theorem tryCur_legTag {k lat lon txt : List Char} (hk : k ∈ tagKinds)
    (hlat1 : lat ≠ []) (hlat2 : '"' ∉ lat) (hlon1 : lon ≠ []) (hlon2 : '"' ∉ lon)
    (r : List Char) :
    tryCur (mkLegTag k lat lon txt ++ r) = none := by
  have e0 : mkLegTag k lat lon txt ++ r =
      "<".data ++ (k ++ (" ".data ++ ("lat=\"".data ++ (lat ++ ("\"".data ++ (" ".data ++
        ("lon=\"".data ++ (lon ++ ("\"".data ++ (">".data ++ (txt ++ ("</".data ++
        (k ++ (">".data ++ r)))))))))))))) := by
    simp [mkLegTag, List.append_assoc]
  rw [tryCur, e0, dropLit_self_append, Option.some_bind, scanKind_spec hk, Option.some_bind]
  rw [show (k, (" ".data ++ ("lat=\"".data ++ (lat ++ ("\"".data ++ (" ".data ++
      ("lon=\"".data ++ (lon ++ ("\"".data ++ (">".data ++ (txt ++ ("</".data ++
      (k ++ (">".data ++ r)))))))))))))).2 = (" ".data ++ ("lat=\"".data ++ (lat ++
      ("\"".data ++ (" ".data ++ ("lon=\"".data ++ (lon ++ ("\"".data ++ (">".data ++
      (txt ++ ("</".data ++ (k ++ (">".data ++ r))))))))))))) from rfl]
  rw [scanAttr_lat lat _ hlat1 hlat2, Option.some_bind]
  rw [scanAttr_lon lon _ hlon1 hlon2, Option.some_bind]
  have hz : scanAttr "zoom_level" (">".data ++ (txt ++ ("</".data ++ (k ++ (">".data ++ r))))) =
      none := by
    rw [scanAttr]
    have : spaces1 ('>' :: (txt ++ ("</".data ++ (k ++ (">".data ++ r))))) = none := by
      rw [spaces1, if_neg (by decide)]
    rw [show (">".data ++ (txt ++ ("</".data ++ (k ++ (">".data ++ r))))) =
      '>' :: (txt ++ ("</".data ++ (k ++ (">".data ++ r)))) from rfl, this]
    rfl
  rw [hz]
  rfl

theorem trySimple_wrapAddr {txt : List Char} (htxt1 : txt ≠ []) (htxt2 : '<' ∉ txt)
    (r : List Char) : trySimple (wrapAddr txt ++ r) = some (txt, r) := by
  have e0 : wrapAddr txt ++ r =
      "<".data ++ ("address".data ++ (">".data ++ (txt ++ ("</".data ++
        ("address".data ++ (">".data ++ r)))))) := by
    simp [wrapAddr, List.append_assoc]
  have hk : "address".data ∈ tagKinds := by decide
  rw [trySimple, e0, dropLit_self_append, Option.some_bind, scanKind_spec hk, Option.some_bind]
  rw [show (("address".data, (">".data ++ (txt ++ ("</".data ++ ("address".data ++
      (">".data ++ r))))))).2 = (">".data ++ (txt ++ ("</".data ++ ("address".data ++
      (">".data ++ r))))) from rfl]
  rw [dropLit_self_append, Option.some_bind]
  exact scanClose_spec "address".data txt r htxt1 htxt2

theorem tryAddrOnly_wrapAddr {txt : List Char} (htxt1 : txt ≠ []) (htxt2 : '<' ∉ txt)
    (r : List Char) : tryAddrOnly (wrapAddr txt ++ r) = some (txt, r) := by
  have e0 : wrapAddr txt ++ r =
      "<address>".data ++ (txt ++ ('<' :: ('/' :: ("address>".data ++ r)))) := by
    simp [wrapAddr, List.append_assoc]
  rw [tryAddrOnly, e0, dropLit_self_append, Option.some_bind,
    scanInner_spec txt _ htxt1 htxt2, Option.some_bind]
  rw [show ('<' :: ('/' :: ("address>".data ++ r))) = "</address>".data ++ r from rfl,
    dropLit_self_append]
  rfl

/-! ### Inert segments under each pass -/

theorem NoLt_append {a b : List Char} (ha : NoLt a) (hb : NoLt b) : NoLt (a ++ b) := by
  intro c hc
  rcases List.mem_append.mp hc with h | h
  · exact ha c h
  · exact hb c h

theorem NoLt_kind {k : List Char} (hk : k ∈ tagKinds) : NoLt k := by
  simp only [tagKinds, List.mem_cons, List.not_mem_nil, or_false] at hk
  rcases hk with rfl | rfl | rfl <;> decide

/-- The inside of a legacy tag after its opening `<`, before its `</K>`. -/
def midLeg (k lat lon txt : List Char) : List Char :=
  k ++ ([' '] ++ ("lat=\"".data ++ (lat ++ (['"'] ++ ([' '] ++ ("lon=\"".data ++
    (lon ++ (['"'] ++ (['>'] ++ txt)))))))))

theorem legTag_decomp (k lat lon txt rest : List Char) :
    mkLegTag k lat lon txt ++ rest =
      '<' :: (midLeg k lat lon txt ++ ('<' :: ('/' :: (k ++ ('>' :: rest))))) := by
  simp [mkLegTag, midLeg, List.append_assoc,
    show "<".data = ['<'] from rfl, show ">".data = ['>'] from rfl,
    show " ".data = [' '] from rfl, show "\"".data = ['"'] from rfl,
    show "</".data = ['<', '/'] from rfl]

theorem NoLt_midLeg {k lat lon txt : List Char} (hk : NoLt k) (hlat : NoLt lat)
    (hlon : NoLt lon) (htxt : NoLt txt) : NoLt (midLeg k lat lon txt) := by
  refine NoLt_append hk (NoLt_append (by decide) (NoLt_append (by decide)
    (NoLt_append hlat (NoLt_append (by decide) (NoLt_append (by decide)
    (NoLt_append (by decide) (NoLt_append hlon (NoLt_append (by decide)
    (NoLt_append (by decide) htxt)))))))))

/-- A legacy tag passes through the current-schema pass unchanged. -/
theorem subAll_tryCur_legTag {k lat lon txt : List Char} (hk : k ∈ tagKinds)
    (hlat1 : lat ≠ []) (hlat2 : '"' ∉ lat) (hlon1 : lon ≠ []) (hlon2 : '"' ∉ lon)
    (hlatL : NoLt lat) (hlonL : NoLt lon) (htxtL : NoLt txt) (rest : List Char) :
    subAll tryCur (mkLegTag k lat lon txt ++ rest) =
      mkLegTag k lat lon txt ++ subAll tryCur rest := by
  have hfail : tryCur ('<' :: (midLeg k lat lon txt ++ ('<' :: ('/' :: (k ++ ('>' :: rest)))))) = none := by
    rw [← legTag_decomp]
    exact tryCur_legTag hk hlat1 hlat2 hlon1 hlon2 rest
  have hheadC : ∀ (c : Char) (cs : List Char), c ≠ '<' → tryCur (c :: cs) = none :=
    fun c cs h => tryCur_not_lt h cs
  rw [legTag_decomp, subAll_cons_fail hfail,
    subAll_append_noLt hheadC _ (NoLt_midLeg (NoLt_kind hk) hlatL hlonL htxtL),
    subAll_cons_fail (tryCur_slash _),
    subAll_cons_fail (tryCur_not_lt (by decide) _),
    subAll_append_noLt hheadC _ (NoLt_kind hk),
    subAll_cons_fail (tryCur_not_lt (by decide) _)]
  conv_rhs => rw [legTag_decomp]

/-- An already-`<address>`-wrapped span passes through a pass whose pattern
demands attributes (`tryCur`, `tryLeg`). -/
theorem wrapAddr_decomp (txt rest : List Char) :
    wrapAddr txt ++ rest =
      '<' :: (("address>".data ++ txt) ++ ('<' :: ('/' :: ("address>".data ++ rest)))) := by
  simp [wrapAddr, List.append_assoc,
    show "<address>".data = '<' :: "address>".data from rfl,
    show "</address>".data = '<' :: '/' :: "address>".data from rfl]

theorem subAll_tryCur_wrapAddr {txt : List Char} (htxtL : NoLt txt) (rest : List Char) :
    subAll tryCur (wrapAddr txt ++ rest) = wrapAddr txt ++ subAll tryCur rest := by
  have hfail : tryCur ('<' :: (("address>".data ++ txt) ++
      ('<' :: ('/' :: ("address>".data ++ rest))))) = none := by
    rw [← wrapAddr_decomp]
    rw [show wrapAddr txt ++ rest =
      '<' :: 'a' :: 'd' :: 'd' :: 'r' :: 'e' :: 's' :: 's' :: '>' ::
        (txt ++ ("</address>".data ++ rest)) from by simp [wrapAddr]]
    exact tryCur_addrTag _
  have hheadC : ∀ (c : Char) (cs : List Char), c ≠ '<' → tryCur (c :: cs) = none :=
    fun c cs h => tryCur_not_lt h cs
  rw [wrapAddr_decomp, subAll_cons_fail hfail,
    subAll_append_noLt hheadC _ (NoLt_append (by decide) htxtL),
    subAll_cons_fail (tryCur_slash _),
    subAll_cons_fail (tryCur_not_lt (by decide) _),
    subAll_append_noLt hheadC _ (by decide)]
  conv_rhs => rw [wrapAddr_decomp]

theorem subAll_tryLeg_wrapAddr {txt : List Char} (htxtL : NoLt txt) (rest : List Char) :
    subAll tryLeg (wrapAddr txt ++ rest) = wrapAddr txt ++ subAll tryLeg rest := by
  have hfail : tryLeg ('<' :: (("address>".data ++ txt) ++
      ('<' :: ('/' :: ("address>".data ++ rest))))) = none := by
    rw [← wrapAddr_decomp]
    rw [show wrapAddr txt ++ rest =
      '<' :: 'a' :: 'd' :: 'd' :: 'r' :: 'e' :: 's' :: 's' :: '>' ::
        (txt ++ ("</address>".data ++ rest)) from by simp [wrapAddr]]
    exact tryLeg_addrTag _
  have hheadC : ∀ (c : Char) (cs : List Char), c ≠ '<' → tryLeg (c :: cs) = none :=
    fun c cs h => tryLeg_not_lt h cs
  rw [wrapAddr_decomp, subAll_cons_fail hfail,
    subAll_append_noLt hheadC _ (NoLt_append (by decide) htxtL),
    subAll_cons_fail (tryLeg_slash _),
    subAll_cons_fail (tryLeg_not_lt (by decide) _),
    subAll_append_noLt hheadC _ (by decide)]
  conv_rhs => rw [wrapAddr_decomp]

/-- The middle of a produced anchor (between its leading `<` and the `</a>`). -/
def anchorMid (lat lon zoom txt : List Char) : List Char :=
  ['a', ' '] ++ ("href=\"https://www.arcgis.com/apps/mapviewer/index.html?center=".data ++
    (lon ++ ([','] ++ (lat ++ ("&level=".data ++ (zoom ++ ("&marker=".data ++
    (lon ++ ([','] ++ (lat ++ ("\" target=\"_blank\">".data ++ txt)))))))))))

theorem anchor_decomp (lat lon zoom txt rest : List Char) :
    anchorFor lat lon zoom txt ++ rest =
      '<' :: (anchorMid lat lon zoom txt ++ ('<' :: ('/' :: ("a>".data ++ rest)))) := by
  simp [anchorFor, anchorMid, List.append_assoc,
    show "<a href=\"https://www.arcgis.com/apps/mapviewer/index.html?center=".data =
      '<' :: 'a' :: ' ' ::
        "href=\"https://www.arcgis.com/apps/mapviewer/index.html?center=".data from rfl,
    show ",".data = [','] from rfl,
    show "</a>".data = '<' :: '/' :: "a>".data from rfl]

theorem NoLt_anchorMid {lat lon zoom txt : List Char} (hlat : NoLt lat) (hlon : NoLt lon)
    (hzoom : NoLt zoom) (htxt : NoLt txt) : NoLt (anchorMid lat lon zoom txt) := by
  refine NoLt_append (by decide) (NoLt_append (by decide) (NoLt_append hlon
    (NoLt_append (by decide) (NoLt_append hlat (NoLt_append (by decide)
    (NoLt_append hzoom (NoLt_append (by decide) (NoLt_append hlon
    (NoLt_append (by decide) (NoLt_append hlat (NoLt_append (by decide) htxt)))))))))))

/-- A produced anchor is inert for any later pass (all of which fail on
`<a `, on `</`, and on a non-`<` head). -/
theorem subAll_anchor {t : List Char → Option (List Char × List Char)}
    (hhead : ∀ (c : Char) (cs : List Char), c ≠ '<' → t (c :: cs) = none)
    (hA : ∀ r, t ('<' :: 'a' :: ' ' :: r) = none)
    (hS : ∀ r, t ('<' :: '/' :: r) = none)
    {lat lon zoom txt : List Char} (hlat : NoLt lat) (hlon : NoLt lon) (hzoom : NoLt zoom)
    (htxt : NoLt txt) (rest : List Char) :
    subAll t (anchorFor lat lon zoom txt ++ rest) =
      anchorFor lat lon zoom txt ++ subAll t rest := by
  have hfail : t ('<' :: (anchorMid lat lon zoom txt ++
      ('<' :: ('/' :: ("a>".data ++ rest))))) = none := by
    rw [show anchorMid lat lon zoom txt ++ ('<' :: ('/' :: ("a>".data ++ rest))) =
      'a' :: ' ' :: ("href=\"https://www.arcgis.com/apps/mapviewer/index.html?center=".data ++
        (lon ++ ([','] ++ (lat ++ ("&level=".data ++ (zoom ++ ("&marker=".data ++
        (lon ++ ([','] ++ (lat ++ ("\" target=\"_blank\">".data ++ txt))))))))))) ++
        ('<' :: ('/' :: ("a>".data ++ rest))) from by simp [anchorMid, List.append_assoc]]
    exact hA _
  rw [anchor_decomp, subAll_cons_fail hfail,
    subAll_append_noLt hhead _ (NoLt_anchorMid hlat hlon hzoom htxt),
    subAll_cons_fail (hS _),
    subAll_cons_fail (hhead '/' _ (by decide)),
    subAll_append_noLt hhead _ (by decide)]
  conv_rhs => rw [anchor_decomp]

theorem consumes_tryCur : Consumes tryCur := tryCur_lt

theorem consumes_tryLeg : Consumes tryLeg := tryLeg_lt

theorem consumes_trySimple : Consumes trySimple := trySimple_lt

theorem consumes_tryAddrOnly : Consumes tryAddrOnly := tryAddrOnly_lt

theorem subAll_match_at {t : List Char → Option (List Char × List Char)} (ht : Consumes t)
    {seg r rest repl : List Char} (hne : seg ≠ []) (h : t (seg ++ r) = some (repl, rest)) :
    subAll t (seg ++ r) = repl ++ subAll t rest := by
  cases seg with
  | nil => exact absurd rfl hne
  | cons c cs =>
    rw [List.cons_append] at h ⊢
    exact subAll_cons_match ht h

theorem currentRepl_anchor {lat lon zoom : List Char} (h1 : lat ≠ "none".data)
    (h2 : lon ≠ "none".data) (h3 : zoom ≠ "none".data) (txt : List Char) :
    currentRepl lat lon zoom txt = anchorFor lat lon zoom txt := by
  simp [currentRepl, h1, h2, h3]

theorem currentRepl_none_zoom (lat lon txt : List Char) :
    currentRepl lat lon "none".data txt = txt := by
  simp [currentRepl]

theorem legacyRepl_anchor {lat lon : List Char} (h1 : lat ≠ "none".data)
    (h2 : lon ≠ "none".data) (txt : List Char) :
    legacyRepl lat lon txt = anchorFor lat lon "16".data txt := by
  simp [legacyRepl, h1, h2]

theorem legacyRepl_none_lat (lon txt : List Char) :
    legacyRepl "none".data lon txt = txt := by
  simp [legacyRepl]

theorem mkCurTag_ne (k lat lon zoom txt : List Char) : mkCurTag k lat lon zoom txt ≠ [] := by
  simp [mkCurTag]

theorem mkLegTag_ne (k lat lon txt : List Char) : mkLegTag k lat lon txt ≠ [] := by
  simp [mkLegTag]

/-- C6 (confirmed): `transform_xml_to_html_links` replaces a current-schema
tag (kind GPE/LOC/address, lat/lon/zoom attributes, none of them "none") by
the arcgis map-viewer anchor using its own zoom level; replaces a
legacy-schema tag (lat/lon only) by the same anchor with zoom level 16; a tag
with a coordinate attribute equal to "none" is replaced by its inner text
alone; and one call renders a current-schema and a legacy-schema tag
coexisting in the same string.  Context strings and attribute/inner values
are arbitrary subject to well-formedness: contexts without `<`, attribute
values non-empty without `"` or `<`, inner texts non-empty without `<`. -/
theorem C6_renderer_dual_schema
    (k1 k2 lat1 lon1 zoom1 lat2 lon2 txt1 txt2 s1 s2 s3 : List Char)
    (hk1 : k1 ∈ tagKinds) (hk2 : k2 ∈ tagKinds)
    (hlat1 : lat1 ≠ [] ∧ '"' ∉ lat1 ∧ NoLt lat1 ∧ lat1 ≠ "none".data)
    (hlon1 : lon1 ≠ [] ∧ '"' ∉ lon1 ∧ NoLt lon1 ∧ lon1 ≠ "none".data)
    (hzoom1 : zoom1 ≠ [] ∧ '"' ∉ zoom1 ∧ NoLt zoom1 ∧ zoom1 ≠ "none".data)
    (hlat2 : lat2 ≠ [] ∧ '"' ∉ lat2 ∧ NoLt lat2 ∧ lat2 ≠ "none".data)
    (hlon2 : lon2 ≠ [] ∧ '"' ∉ lon2 ∧ NoLt lon2 ∧ lon2 ≠ "none".data)
    (htxt1 : txt1 ≠ [] ∧ NoLt txt1) (htxt2 : txt2 ≠ [] ∧ NoLt txt2)
    (hs1 : NoLt s1) (hs2 : NoLt s2) (hs3 : NoLt s3) :
    (transform_xml_to_html_links
        (s1 ++ mkCurTag k1 lat1 lon1 zoom1 txt1 ++ s2 ++ mkLegTag k2 lat2 lon2 txt2 ++ s3) =
      s1 ++ anchorFor lat1 lon1 zoom1 txt1 ++ s2 ++ anchorFor lat2 lon2 "16".data txt2 ++ s3) ∧
    (transform_xml_to_html_links (s1 ++ mkCurTag k1 lat1 lon1 "none".data txt1 ++ s2) =
      s1 ++ txt1 ++ s2) ∧
    (transform_xml_to_html_links (s1 ++ mkLegTag k2 "none".data lon2 txt2 ++ s2) =
      s1 ++ txt2 ++ s2) := by
  obtain ⟨hlat1a, hlat1b, hlat1c, hlat1d⟩ := hlat1
  obtain ⟨hlon1a, hlon1b, hlon1c, hlon1d⟩ := hlon1
  obtain ⟨hzoom1a, hzoom1b, hzoom1c, hzoom1d⟩ := hzoom1
  obtain ⟨hlat2a, hlat2b, hlat2c, hlat2d⟩ := hlat2
  obtain ⟨hlon2a, hlon2b, hlon2c, hlon2d⟩ := hlon2
  obtain ⟨htxt1a, htxt1c⟩ := htxt1
  obtain ⟨htxt2a, htxt2c⟩ := htxt2
  have htxt1b : '<' ∉ txt1 := fun hm => htxt1c '<' hm rfl
  have htxt2b : '<' ∉ txt2 := fun hm => htxt2c '<' hm rfl
  have hheadC : ∀ (c : Char) (cs : List Char), c ≠ '<' → tryCur (c :: cs) = none :=
    fun c cs h => tryCur_not_lt h cs
  have hheadL : ∀ (c : Char) (cs : List Char), c ≠ '<' → tryLeg (c :: cs) = none :=
    fun c cs h => tryLeg_not_lt h cs
  have hheadS : ∀ (c : Char) (cs : List Char), c ≠ '<' → trySimple (c :: cs) = none :=
    fun c cs h => trySimple_not_lt h cs
  have hheadA : ∀ (c : Char) (cs : List Char), c ≠ '<' → tryAddrOnly (c :: cs) = none :=
    fun c cs h => tryAddrOnly_not_lt h cs
  refine ⟨?_, ?_, ?_⟩
  · simp only [List.append_assoc]
    show subAll tryAddrOnly (subAll trySimple (subAll tryLeg (subAll tryCur _))) = _
    rw [subAll_append_noLt hheadC _ hs1,
      subAll_match_at consumes_tryCur (mkCurTag_ne _ _ _ _ _)
        (tryCur_tag hk1 hlat1a hlat1b hlon1a hlon1b hzoom1a hzoom1b htxt1a htxt1b _),
      currentRepl_anchor hlat1d hlon1d hzoom1d,
      subAll_append_noLt hheadC _ hs2,
      subAll_tryCur_legTag hk2 hlat2a hlat2b hlon2a hlon2b hlat2c hlon2c htxt2c,
      subAll_noLt hheadC hs3]
    rw [subAll_append_noLt hheadL _ hs1,
      subAll_anchor hheadL tryLeg_anchor tryLeg_slash hlat1c hlon1c hzoom1c htxt1c,
      subAll_append_noLt hheadL _ hs2,
      subAll_match_at consumes_tryLeg (mkLegTag_ne _ _ _ _)
        (tryLeg_tag hk2 hlat2a hlat2b hlon2a hlon2b htxt2a htxt2b _),
      legacyRepl_anchor hlat2d hlon2d,
      subAll_noLt hheadL hs3]
    rw [subAll_append_noLt hheadS _ hs1,
      subAll_anchor hheadS trySimple_anchor trySimple_slash hlat1c hlon1c hzoom1c htxt1c,
      subAll_append_noLt hheadS _ hs2,
      subAll_anchor hheadS trySimple_anchor trySimple_slash hlat2c hlon2c (by decide) htxt2c,
      subAll_noLt hheadS hs3]
    rw [subAll_append_noLt hheadA _ hs1,
      subAll_anchor hheadA tryAddrOnly_anchor tryAddrOnly_slash hlat1c hlon1c hzoom1c htxt1c,
      subAll_append_noLt hheadA _ hs2,
      subAll_anchor hheadA tryAddrOnly_anchor tryAddrOnly_slash hlat2c hlon2c (by decide) htxt2c,
      subAll_noLt hheadA hs3]
  · simp only [List.append_assoc]
    show subAll tryAddrOnly (subAll trySimple (subAll tryLeg (subAll tryCur _))) = _
    rw [subAll_append_noLt hheadC _ hs1,
      subAll_match_at consumes_tryCur (mkCurTag_ne _ _ _ _ _)
        (tryCur_tag hk1 hlat1a hlat1b hlon1a hlon1b (by decide) (by decide) htxt1a htxt1b _),
      currentRepl_none_zoom,
      subAll_noLt hheadC hs2]
    rw [subAll_noLt hheadL (NoLt_append hs1 (NoLt_append htxt1c hs2))]
    rw [subAll_noLt hheadS (NoLt_append hs1 (NoLt_append htxt1c hs2))]
    rw [subAll_noLt hheadA (NoLt_append hs1 (NoLt_append htxt1c hs2))]
  · simp only [List.append_assoc]
    show subAll tryAddrOnly (subAll trySimple (subAll tryLeg (subAll tryCur _))) = _
    rw [subAll_append_noLt hheadC _ hs1,
      subAll_tryCur_legTag hk2 (by decide) (by decide) hlon2a hlon2b (by decide) hlon2c htxt2c,
      subAll_noLt hheadC hs2]
    rw [subAll_append_noLt hheadL _ hs1,
      subAll_match_at consumes_tryLeg (mkLegTag_ne _ _ _ _)
        (tryLeg_tag hk2 (by decide) (by decide) hlon2a hlon2b htxt2a htxt2b _),
      legacyRepl_none_lat,
      subAll_noLt hheadL hs2]
    rw [subAll_noLt hheadS (NoLt_append hs1 (NoLt_append htxt2c hs2))]
    rw [subAll_noLt hheadA (NoLt_append hs1 (NoLt_append htxt2c hs2))]

/-! ## Claim C7 -/

/-- A tagged text decomposed as a leading segment followed by wrapped spans,
each with its trailing segment. -/
def taggedConcat (s0 : List Char) (ps : List (List Char × List Char)) : List Char :=
  s0 ++ (ps.map (fun p => wrapAddr p.1 ++ p.2)).flatten

/-- The same decomposition with the tags removed. -/
def strippedConcat (s0 : List Char) (ps : List (List Char × List Char)) : List Char :=
  s0 ++ (ps.map (fun p => p.1 ++ p.2)).flatten

theorem taggedConcat_cons (s0 : List Char) (p : List Char × List Char)
    (rest : List (List Char × List Char)) :
    taggedConcat s0 (p :: rest) = s0 ++ (wrapAddr p.1 ++ taggedConcat p.2 rest) := by
  simp [taggedConcat, List.append_assoc]

theorem strippedConcat_cons (s0 : List Char) (p : List Char × List Char)
    (rest : List (List Char × List Char)) :
    strippedConcat s0 (p :: rest) = s0 ++ (p.1 ++ strippedConcat p.2 rest) := by
  simp [strippedConcat, List.append_assoc]

theorem wrapAddr_ne (txt : List Char) : wrapAddr txt ≠ [] := by simp [wrapAddr]

theorem pass1_id_taggedConcat :
    ∀ (ps : List (List Char × List Char)) (s0 : List Char), NoLt s0 →
      (∀ p ∈ ps, p.1 ≠ [] ∧ NoLt p.1 ∧ NoLt p.2) →
      subAll tryCur (taggedConcat s0 ps) = taggedConcat s0 ps := by
  intro ps
  induction ps with
  | nil =>
    intro s0 hs0 _
    have : taggedConcat s0 [] = s0 := by simp [taggedConcat]
    rw [this, subAll_noLt (fun c cs h => tryCur_not_lt h cs) hs0]
  | cons p rest ih =>
    intro s0 hs0 hps
    obtain ⟨_, hp2, hp3⟩ := hps p (List.mem_cons_self p rest)
    rw [taggedConcat_cons,
      subAll_append_noLt (fun c cs h => tryCur_not_lt h cs) _ hs0,
      subAll_tryCur_wrapAddr hp2,
      ih p.2 hp3 (fun q hq => hps q (List.mem_cons_of_mem p hq))]

theorem pass2_id_taggedConcat :
    ∀ (ps : List (List Char × List Char)) (s0 : List Char), NoLt s0 →
      (∀ p ∈ ps, p.1 ≠ [] ∧ NoLt p.1 ∧ NoLt p.2) →
      subAll tryLeg (taggedConcat s0 ps) = taggedConcat s0 ps := by
  intro ps
  induction ps with
  | nil =>
    intro s0 hs0 _
    have : taggedConcat s0 [] = s0 := by simp [taggedConcat]
    rw [this, subAll_noLt (fun c cs h => tryLeg_not_lt h cs) hs0]
  | cons p rest ih =>
    intro s0 hs0 hps
    obtain ⟨_, hp2, hp3⟩ := hps p (List.mem_cons_self p rest)
    rw [taggedConcat_cons,
      subAll_append_noLt (fun c cs h => tryLeg_not_lt h cs) _ hs0,
      subAll_tryLeg_wrapAddr hp2,
      ih p.2 hp3 (fun q hq => hps q (List.mem_cons_of_mem p hq))]

theorem pass3_strips_taggedConcat :
    ∀ (ps : List (List Char × List Char)) (s0 : List Char), NoLt s0 →
      (∀ p ∈ ps, p.1 ≠ [] ∧ NoLt p.1 ∧ NoLt p.2) →
      subAll trySimple (taggedConcat s0 ps) = strippedConcat s0 ps := by
  intro ps
  induction ps with
  | nil =>
    intro s0 hs0 _
    have h1 : taggedConcat s0 [] = s0 := by simp [taggedConcat]
    have h2 : strippedConcat s0 [] = s0 := by simp [strippedConcat]
    rw [h1, h2, subAll_noLt (fun c cs h => trySimple_not_lt h cs) hs0]
  | cons p rest ih =>
    intro s0 hs0 hps
    obtain ⟨hp1, hp2, hp3⟩ := hps p (List.mem_cons_self p rest)
    have hp2' : '<' ∉ p.1 := fun hm => hp2 '<' hm rfl
    rw [taggedConcat_cons, strippedConcat_cons,
      subAll_append_noLt (fun c cs h => trySimple_not_lt h cs) _ hs0,
      subAll_match_at consumes_trySimple (wrapAddr_ne p.1) (trySimple_wrapAddr hp1 hp2' _),
      ih p.2 hp3 (fun q hq => hps q (List.mem_cons_of_mem p hq))]

theorem NoLt_strippedConcat :
    ∀ (ps : List (List Char × List Char)) (s0 : List Char), NoLt s0 →
      (∀ p ∈ ps, p.1 ≠ [] ∧ NoLt p.1 ∧ NoLt p.2) →
      NoLt (strippedConcat s0 ps) := by
  intro ps
  induction ps with
  | nil =>
    intro s0 hs0 _
    have h2 : strippedConcat s0 [] = s0 := by simp [strippedConcat]
    rw [h2]
    exact hs0
  | cons p rest ih =>
    intro s0 hs0 hps
    obtain ⟨_, hp2, hp3⟩ := hps p (List.mem_cons_self p rest)
    rw [strippedConcat_cons]
    exact NoLt_append hs0 (NoLt_append hp2
      (ih p.2 hp3 (fun q hq => hps q (List.mem_cons_of_mem p hq))))

/-- C7 (amended): when the tagger's output decomposes into `<`-free context
segments and non-empty `<`-free inner texts wrapped in `<address>` tags, and
that decomposition with the tags removed is the original text, the renderer
removes the tags and preserves every inner text verbatim — it returns the
original text.  (The restriction to `<`-free inner texts is forced: a tagged
span containing `<` survives rendering, see the counterexample.) -/
theorem C7_roundtrip_amended (text s0 : List Char) (ps : List (List Char × List Char))
    (htag : tag_addresses_in_text text = taggedConcat s0 ps)
    (hs0 : NoLt s0)
    (hps : ∀ p ∈ ps, p.1 ≠ [] ∧ NoLt p.1 ∧ NoLt p.2)
    (hstrip : strippedConcat s0 ps = text) :
    transform_xml_to_html_links (tag_addresses_in_text text) = text := by
  rw [htag, ← hstrip]
  show subAll tryAddrOnly (subAll trySimple (subAll tryLeg (subAll tryCur _))) = _
  rw [pass1_id_taggedConcat ps s0 hs0 hps, pass2_id_taggedConcat ps s0 hs0 hps,
    pass3_strips_taggedConcat ps s0 hs0 hps,
    subAll_noLt (fun c cs h => tryAddrOnly_not_lt h cs) (NoLt_strippedConcat ps s0 hs0 hps)]

/-- C7 witness: the Scenario A text round-trips: tagging wraps the whole span
and rendering removes the tag again. -/
theorem C7_roundtrip_amended_wit :
    transform_xml_to_html_links
        (tag_addresses_in_text "123 Main Street, Anytown, CA 90210".data) =
      "123 Main Street, Anytown, CA 90210".data :=
  C7_roundtrip_amended _ [] [("123 Main Street, Anytown, CA 90210".data, [])]
    (by decide) (by decide) (by decide) (by decide)

/-- C7 (as stated, counterexample): on
"123 Main Street < Anytown, CA 90210" the tagger wraps the whole span, whose
inner text contains `<`; no renderer pattern can match across the stray `<`,
so the `<address>` tag survives rendering and the round-trip does not return
the original text. -/
theorem C7_roundtrip_cex :
    tag_addresses_in_text "123 Main Street < Anytown, CA 90210".data =
      wrapAddr "123 Main Street < Anytown, CA 90210".data ∧
    transform_xml_to_html_links
        (tag_addresses_in_text "123 Main Street < Anytown, CA 90210".data) =
      wrapAddr "123 Main Street < Anytown, CA 90210".data ∧
    transform_xml_to_html_links
        (tag_addresses_in_text "123 Main Street < Anytown, CA 90210".data) ≠
      "123 Main Street < Anytown, CA 90210".data := by
  exact ⟨by decide, by decide, by decide⟩

/-- C6 witness: the dual-schema theorem applied at concrete values — a
current-schema GPE tag with zoom 10 and a legacy LOC tag in one text. -/
theorem C6_renderer_dual_schema_wit :
    transform_xml_to_html_links
        ("go ".data ++
          mkCurTag "GPE".data "34.05".data "-118.25".data "10".data "Los Angeles".data ++
          " mid ".data ++ mkLegTag "LOC".data "1.5".data "2.5".data "Spot".data ++
          " end".data) =
      "go ".data ++ anchorFor "34.05".data "-118.25".data "10".data "Los Angeles".data ++
        " mid ".data ++ anchorFor "1.5".data "2.5".data "16".data "Spot".data ++
        " end".data :=
  (C6_renderer_dual_schema "GPE".data "LOC".data "34.05".data "-118.25".data "10".data
    "1.5".data "2.5".data "Los Angeles".data "Spot".data
    "go ".data " mid ".data " end".data
    (by decide) (by decide) (by decide) (by decide) (by decide) (by decide) (by decide)
    (by decide) (by decide) (by decide) (by decide) (by decide)).1
